import Mathlib

/-!
Verification development for the turkicnlp repository: a shallow embedding of
the morphological-disambiguation core (`turkicnlp/processors/morphology.py`),
the tag mappers (`turkicnlp/resources/tag_mappings/`), the script detector
(`turkicnlp/scripts/detector.py`) and the transliteration engine
(`turkicnlp/scripts/transliterator.py`), together with theorems about them.

Python strings are modelled as Lean `String`/`List Char`; FST weights (Python
floats holding finite path costs) are modelled as `ℚ`; functions of the external
`unicodedata` library (`normalize`, `category`, `str.lower`, `str.isupper`,
`str.isalpha`) are modelled by explicit character tables covering the repertoire
the repository's tables and the concrete inputs below exercise, or are kept as
parameters where a theorem holds for any choice of the external function.
-/

namespace TurkicNLP

/-- Pairs (uppercase, lowercase) modelling Python's `str.upper`/`str.lower`/
`str.isupper` on the characters appearing in the repository's transliteration
tables and in the concrete inputs used below: ASCII, the Cyrillic block letters,
and the extra Cyrillic/Latin letters of the Turkic alphabets. -/
def casePairs : List (Char × Char) :=
  [('A','a'),('B','b'),('C','c'),('D','d'),('E','e'),('F','f'),('G','g'),
   ('H','h'),('I','i'),('J','j'),('K','k'),('L','l'),('M','m'),('N','n'),
   ('O','o'),('P','p'),('Q','q'),('R','r'),('S','s'),('T','t'),('U','u'),
   ('V','v'),('W','w'),('X','x'),('Y','y'),('Z','z'),
   ('А','а'),('Б','б'),('В','в'),('Г','г'),('Д','д'),('Е','е'),('Ж','ж'),
   ('З','з'),('И','и'),('Й','й'),('К','к'),('Л','л'),('М','м'),('Н','н'),
   ('О','о'),('П','п'),('Р','р'),('С','с'),('Т','т'),('У','у'),('Ф','ф'),
   ('Х','х'),('Ц','ц'),('Ч','ч'),('Ш','ш'),('Щ','щ'),('Ъ','ъ'),('Ы','ы'),
   ('Ь','ь'),('Э','э'),('Ю','ю'),('Я','я'),('Ё','ё'),
   ('Ә','ә'),('Ғ','ғ'),('Қ','қ'),('Ң','ң'),('Ө','ө'),('Ұ','ұ'),('Ү','ү'),
   ('І','і'),('Һ','һ'),('Ў','ў'),('Ҳ','ҳ'),('Җ','җ'),('Ҹ','ҹ'),('Ҝ','ҝ'),
   ('Ä','ä'),('Ğ','ğ'),('Ñ','ñ'),('Ö','ö'),('Ū','ū'),('Ü','ü'),('Ç','ç'),
   ('Ş','ş'),('Ý','ý'),('Ž','ž'),('Ň','ň'),('Á','á'),('Ǵ','ǵ'),('Ń','ń'),
   ('Ó','ó'),('Ú','ú'),('Í','í'),('É','é'),('Ə','ə')]

/-- Model of Python `str.lower` on a single character (identity off the table). -/
def pyLowerChar (c : Char) : Char :=
  match casePairs.find? (fun p => p.1 = c) with
  | some p => p.2
  | none => c

/-- Model of Python `str.upper` on a single character (identity off the table). -/
def pyUpperChar (c : Char) : Char :=
  match casePairs.find? (fun p => p.2 = c) with
  | some p => p.1
  | none => c

/-- Model of Python `str.isupper` for a single character. -/
def pyIsUpperChar (c : Char) : Bool :=
  casePairs.any (fun p => p.1 = c)

/-- Model of Python `str.islower`-style lowercase letters (used via `isalpha`). -/
def pyIsLowerChar (c : Char) : Bool :=
  casePairs.any (fun p => p.2 = c)

/-- Model of Python `str.isalpha` for a single character, over the cased
repertoire of `casePairs` (all letters exercised here are cased). -/
def pyIsAlphaChar (c : Char) : Bool :=
  pyIsUpperChar c || pyIsLowerChar c

/-- Model of Python `str.lower` on a string (character-wise over `casePairs`). -/
def pyLowerStr (s : String) : String :=
  String.mk (s.data.map pyLowerChar)

/-- Characters of Unicode category `P*` (punctuation), as consulted by
`unicodedata.category(ch).startswith("P")`: the ASCII punctuation set plus the
Unicode punctuation characters the repository's code paths exercise
(hyphen variants, quotation marks, ellipsis). -/
def pyIsPunctChar (c : Char) : Bool :=
  c ∈ ['!', '"', '#', '%', '&', '\x27', '(', ')', '*', ',', '-', '.', '/',
       ':', ';', '?', '@', '[', '\\', ']', '_', '\x7b', '\x7d',
       '«', '»', '‘', '’', '“', '”', '…',
       '‐', '‑', '‒', '–', '—', '―', '؟']

/-- Model of the whitespace stripped by Python `str.strip()`:
ASCII whitespace plus no-break space. -/
def pyIsSpaceChar (c : Char) : Bool :=
  c ∈ [' ', '\t', '\n', '\r', '\x0b', '\x0c', ' ']

/-- Python `str.strip()` on a character list. -/
def pyStrip (cs : List Char) : List Char :=
  ((cs.dropWhile pyIsSpaceChar).reverse.dropWhile pyIsSpaceChar).reverse

/-- The suffix after the last occurrence of `c` (Python `s.split(c)[-1]`);
the whole list when `c` does not occur. -/
def afterLastChar (c : Char) (cs : List Char) : List Char :=
  ((cs.reverse.takeWhile (fun x => x ≠ c))).reverse

/-! ### `ApertiumMorphProcessor._analyze` (morphology.py:622-673)

One FST output string is cleaned (strip, keep text after the last tab, strip a
`^...$` pair, keep text after the last `/`, delete `@...@` marker tokens), then
the lemma is the longest prefix before the first `<` (`re.match("^([^<]+)")`)
and the tags are all bracket contents (`re.findall("<([^>]+)>")`); outputs
with no lemma prefix or no tags are discarded. -/

/-- One candidate morphological analysis (`Reading` of the spec): the dicts
built by `_analyze` with keys `lemma`, `pos`, `feats`, `weight`, `raw`. -/
structure Reading where
  lemma_ : String
  pos : String
  feats : List String
  weight : ℚ
  raw : String
  deriving DecidableEq, Repr

/-- Helper for `stripAtMarkers`: given the characters after an opening `@`,
find the matching closing `@` provided at least one non-`@` character stands
between them (the regex `@[^@]+@`); returns the suffix after the closing `@`. -/
def findAtClose : List Char → Option (List Char)
  | [] => none
  | c :: rest =>
    if c = '@' then none
    else
      match rest.dropWhile (fun x => x ≠ '@') with
      | [] => none
      | _ :: tl => some tl

theorem findAtClose_shorter {cs tl : List Char} (h : findAtClose cs = some tl) :
    tl.length < cs.length := by
  match cs with
  | [] => simp [findAtClose] at h
  | c :: rest =>
    simp only [findAtClose] at h
    by_cases hc : c = '@'
    · simp [hc] at h
    · simp only [hc, if_false] at h
      cases hdw : rest.dropWhile (fun x => x ≠ '@') with
      | nil => rw [hdw] at h; simp at h
      | cons a tl2 =>
        rw [hdw] at h
        simp only [Option.some.injEq] at h
        subst h
        have h1 : (rest.dropWhile (fun x => x ≠ '@')).length ≤ rest.length :=
          (List.dropWhile_suffix _).length_le
        rw [hdw] at h1
        simp only [List.length_cons] at h1 ⊢
        omega

/-- `re.sub(r"@[^@]+@", "", clean)`: delete the internal FST marker tokens.
Structural recursion on a step-count bound: each step consumes at least one
character (`findAtClose_shorter`), so the initial bound `cs.length` used by
`stripAtMarkers` never runs out and the `0` case is unreachable. -/
def stripAtMarkersF : Nat → List Char → List Char
  | _, [] => []
  | 0, l => l
  | fuel + 1, c :: cs =>
    if c = '@' then
      match findAtClose cs with
      | some rest => stripAtMarkersF fuel rest
      | none => '@' :: stripAtMarkersF fuel cs
    else
      c :: stripAtMarkersF fuel cs

def stripAtMarkers (cs : List Char) : List Char :=
  stripAtMarkersF cs.length cs

/-- Helper for `findTags`: given the characters after an opening `<`, return
the bracket content (`[^>]+`, at least one non-`>` character) and the suffix
after the closing `>`. -/
def tagSplit : List Char → Option (List Char × List Char)
  | [] => none
  | c :: rest =>
    if c = '>' then none
    else
      match rest.dropWhile (fun x => x ≠ '>') with
      | [] => none
      | _ :: tl => some (c :: rest.takeWhile (fun x => x ≠ '>'), tl)

theorem tagSplit_shorter {cs : List Char} {mid tl : List Char}
    (h : tagSplit cs = some (mid, tl)) : tl.length < cs.length := by
  match cs with
  | [] => simp [tagSplit] at h
  | c :: rest =>
    simp only [tagSplit] at h
    by_cases hc : c = '>'
    · simp [hc] at h
    · simp only [hc, if_false] at h
      cases hdw : rest.dropWhile (fun x => x ≠ '>') with
      | nil => rw [hdw] at h; simp at h
      | cons a tl2 =>
        rw [hdw] at h
        simp only [Option.some.injEq, Prod.mk.injEq] at h
        obtain ⟨-, h2⟩ := h
        subst h2
        have h1 : (rest.dropWhile (fun x => x ≠ '>')).length ≤ rest.length :=
          (List.dropWhile_suffix _).length_le
        rw [hdw] at h1
        simp only [List.length_cons] at h1 ⊢
        omega

/-- `re.findall(r"<([^>]+)>", clean)`: all bracket contents, in order.
Structural recursion on a step-count bound; each step consumes at least one
character (`tagSplit_shorter`), so the initial bound `cs.length` used by
`findTags` never runs out. -/
def findTagsF : Nat → List Char → List String
  | _, [] => []
  | 0, _ => []
  | fuel + 1, c :: cs =>
    if c = '<' then
      match tagSplit cs with
      | some (mid, rest) => String.mk mid :: findTagsF fuel rest
      | none => findTagsF fuel cs
    else
      findTagsF fuel cs

def findTags (cs : List Char) : List String :=
  findTagsF cs.length cs

/-- The cleaning pipeline of `_analyze` applied to one raw FST output string
(after the initial `strip`): tab suffix, `^...$` strip, `/` suffix, `@...@`
deletion. -/
def cleanAnalysis (s : String) : List Char :=
  let c0 := pyStrip s.data
  let c1 := if c0.contains '\t' then afterLastChar '\t' c0 else c0
  let c2 :=
    if c1.head? = some '^' && c1.getLast? = some '$' then (c1.drop 1).dropLast
    else c1
  let c3 := if c2.contains '/' then afterLastChar '/' c2 else c2
  stripAtMarkers c3

/-- `_analyze`'s per-output parsing: returns the reading, or `none` when the
output is discarded (empty after strip, no lemma prefix, or no tags). -/
def analyzeOne (s : String) (w : ℚ) : Option Reading :=
  if pyStrip s.data = [] then none
  else
    let clean := cleanAnalysis s
    let lem := clean.takeWhile (fun x => x ≠ '<')
    if lem = [] then none
    else
      match (findTags clean).filter (fun t => t ≠ "") with
      | [] => none
      | t :: ts => some ⟨String.mk lem, t, ts, w, s⟩

/-- `ApertiumMorphProcessor._analyze` (morphology.py:622-673) over the list of
`(output_str, weight)` pairs returned by the FST lookup. -/
def analyze (results : List (String × ℚ)) : List Reading :=
  results.filterMap (fun p => analyzeOne p.1 p.2)

/-! ### Tag mapping (resources/tag_mappings/base.py, turkic_common.py) -/

/-- First-match lookup in an association list, modelling a Python dict `.get`
(the embedded dict literals are given with Python's last-wins duplicate
resolution already applied, so keys are unique). -/
def assocLookup {α : Type} (l : List (String × α)) (k : String) : Option α :=
  (l.find? (fun p => p.1 = k)).map (fun p => p.2)

/-- `DEFAULT_POS_MAP` (tag_mappings/base.py:9-26). -/
def DEFAULT_POS_MAP : List (String × String) :=
  [("n", "NOUN"), ("np", "PROPN"), ("v", "VERB"), ("vaux", "AUX"),
   ("adj", "ADJ"), ("adv", "ADV"), ("prn", "PRON"), ("det", "DET"),
   ("post", "ADP"), ("cnjcoo", "CCONJ"), ("cnjsub", "SCONJ"), ("num", "NUM"),
   ("ij", "INTJ"), ("part", "PART"), ("punct", "PUNCT"), ("sym", "SYM")]

/-- `CommonTurkicTagMapper.FEAT_MAP` (tag_mappings/turkic_common.py:16-82).
The Python dict literal assigns `"ind"` twice (`Mood=Ind`, then
`PronType=Ind`); the last assignment wins, so the dict maps `ind` to
`PronType=Ind`, which is the single entry kept here. -/
def FEAT_MAP : List (String × String) :=
  [("nom", "Case=Nom"), ("gen", "Case=Gen"), ("dat", "Case=Dat"),
   ("acc", "Case=Acc"), ("abl", "Case=Abl"), ("loc", "Case=Loc"),
   ("ins", "Case=Ins"), ("equ", "Case=Equ"),
   ("sg", "Number=Sing"), ("pl", "Number=Plur"),
   ("p1", "Person=1"), ("p2", "Person=2"), ("p3", "Person=3"),
   ("du", "Number=Dual"), ("excl", "Clusivity=Excl"), ("incl", "Clusivity=Incl"),
   ("px1sg", "Number[psor]=Sing|Person[psor]=1"),
   ("px2sg", "Number[psor]=Sing|Person[psor]=2"),
   ("px3sg", "Number[psor]=Sing|Person[psor]=3"),
   ("px3sp", "Number[psor]=Sing|Person[psor]=3"),
   ("px1pl", "Number[psor]=Plur|Person[psor]=1"),
   ("px2pl", "Number[psor]=Plur|Person[psor]=2"),
   ("px3pl", "Number[psor]=Plur|Person[psor]=3"),
   ("past", "Tense=Past"), ("pres", "Tense=Pres"), ("fut", "Tense=Fut"),
   ("aor", "Tense=Aor"),
   ("prog", "Aspect=Prog"), ("perf", "Aspect=Perf"),
   ("imp", "Mood=Imp"), ("opt", "Mood=Opt"), ("cond", "Mood=Cnd"),
   ("neces", "Mood=Nec"),
   ("inf", "VerbForm=Inf"), ("ger", "VerbForm=Ger"), ("part", "VerbForm=Part"),
   ("neg", "Polarity=Neg"), ("pass", "Voice=Pass"), ("rcp", "Voice=Rcp"),
   ("rfl", "Voice=Rfl"),
   ("comp", "Degree=Cmp"), ("sup", "Degree=Sup"),
   ("f", "Gender=Fem"), ("m", "Gender=Masc"), ("n", "Gender=Neut"),
   ("pers", "PronType=Prs"), ("dem", "PronType=Dem"), ("qst", "PartType=Int"),
   ("int", "PronType=Int"), ("rel", "PronType=Rel"), ("ind", "PronType=Ind"),
   ("refl", "Reflex=Yes")]

/-- `TagMapper.to_ud_pos` (base.py:42-51) with the default POS map. -/
def toUdPos (apertiumPos : String) : String :=
  (assocLookup DEFAULT_POS_MAP apertiumPos).getD "X"

/-- `TagMapper.map_ud_feats` (base.py:65-82) with the common Turkic FEAT_MAP:
returns `(mapped_ud_feats, unknown_apertium_feats)`, each in input order. -/
def mapUdFeats : List String → List String × List String
  | [] => ([], [])
  | f :: fs =>
    let rest := mapUdFeats fs
    match assocLookup FEAT_MAP f with
    | some v => (v :: rest.1, rest.2)
    | none => (rest.1, f :: rest.2)

/-- Python `<` on strings: lexicographic comparison by code point. -/
def charListLt : List Char → List Char → Bool
  | [], [] => false
  | [], _ :: _ => true
  | _ :: _, [] => false
  | a :: as_, b :: bs =>
    if a.val < b.val then true
    else if b.val < a.val then false
    else charListLt as_ bs

/-- Insert into a sorted list, keeping equal elements in encounter order. -/
def insertSortedStr (x : String) : List String → List String
  | [] => [x]
  | y :: ys =>
    if charListLt y.data x.data then y :: insertSortedStr x ys
    else x :: y :: ys

/-- Python `sorted` on a list of strings. -/
def sortedStrs (l : List String) : List String :=
  l.foldr insertSortedStr []

/-- Python `str.startswith` on character lists (text, pattern). -/
def charsStart : List Char → List Char → Bool
  | _, [] => true
  | [], _ :: _ => false
  | a :: as_, b :: bs => a = b && charsStart as_ bs

/-- Python `f.startswith(p)`. -/
def strStartsWith (f p : String) : Bool :=
  charsStart f.data p.data

/-- Python `s.split(sep)` for a one-character separator (empty parts kept). -/
def splitOnCharAux (sep : Char) : List Char → List (List Char)
  | [] => [[]]
  | c :: cs =>
    match splitOnCharAux sep cs with
    | [] => [[]]
    | h :: t => if c = sep then [] :: h :: t else (c :: h) :: t

def splitOnChar (sep : Char) (s : String) : List String :=
  (splitOnCharAux sep s.data).map String.mk

/-- `TagMapper.to_ud_feats` (base.py:53-63): pipe-joined sorted mapped
features, `_` when none map. -/
def toUdFeats (apertiumFeats : List String) : String :=
  let udFeats := (mapUdFeats apertiumFeats).1
  if udFeats = [] then "_" else String.intercalate "|" (sortedStrs udFeats)

/-- `allowed_prefixes` of `_normalize_ud_feats_for_upos`
(morphology.py:531-613). -/
def allowedPrefixTable : List (String × List String) :=
  [("VERB", ["Aspect=", "Evident=", "Mood=", "Number=", "Person=",
             "Clusivity=", "Polarity=", "Tense=", "VerbForm=", "Voice="]),
   ("AUX", ["Aspect=", "Evident=", "Mood=", "Number=", "Person=",
            "Clusivity=", "Polarity=", "Tense=", "VerbForm=", "Voice="]),
   ("NOUN", ["Case=", "Number=", "Gender=", "Number[psor]=", "Person[psor]="]),
   ("PROPN", ["Case=", "Number=", "Gender=", "Number[psor]=", "Person[psor]="]),
   ("PRON", ["Case=", "Number=", "Person=", "PronType=", "Reflex="]),
   ("DET", ["Case=", "Number=", "Person=", "PronType=", "Reflex="]),
   ("ADJ", ["Case=", "Degree=", "Number=", "Gender="]),
   ("ADV", ["Degree=", "Polarity=", "AdvType=", "PronType="]),
   ("NUM", ["Case=", "Number=", "NumType=", "Gender="]),
   ("PART", ["PartType=", "Polarity="]),
   ("ADP", ["AdpType=", "Case="]),
   ("CCONJ", []), ("SCONJ", []), ("INTJ", []), ("PUNCT", []), ("SYM", []),
   ("X", [])]

/-- `ApertiumMorphProcessor._normalize_ud_feats_for_upos`
(morphology.py:526-620): keep only features whose category prefix is
whitelisted for the UPOS, sorted; `_` when nothing survives. -/
def normalizeUdFeatsForUpos (upos feats : String) : String :=
  if feats = "" || feats = "_" then "_"
  else
    match assocLookup allowedPrefixTable upos with
    | none => feats
    | some prs =>
      let kept := (splitOnChar '|' feats).filter
        (fun f => prs.any (fun p => strStartsWith f p))
      if kept = [] then "_" else String.intercalate "|" (sortedStrs kept)

/-! ### The disambiguator (`ApertiumMorphProcessor._disambiguate`,
morphology.py:675-789) and its sentence-position helpers. -/

/-- `_is_punctuation_token` (morphology.py:239-243). -/
def isPunctuationToken (s : String) : Bool :=
  s ≠ "" && s.data.all pyIsPunctChar

/-- `_QUESTION_PARTICLES` (morphology.py:253-263). -/
def QUESTION_PARTICLES : List String :=
  ["mi", "mı", "mu", "mü", "my", "ma", "me", "ba", "be", "pa", "pe",
   "мы", "ме", "мо", "мү", "ма", "ба", "бе", "па", "пе", "по",
   "дуо", "дë", "до", "ду"]

/-- `_is_question_particle` (morphology.py:245-264). -/
def isQuestionParticle (s : String) : Bool :=
  QUESTION_PARTICLES.contains (pyLowerStr s)

/-- `_is_sentence_initial` (morphology.py:392-399): the word is the first
position holding a non-empty, not-all-punctuation token. A sentence is a list
of word texts; `none` arguments model Python `None`. -/
def isSentenceInitial (words? : Option (List String)) (idx? : Option Nat) : Bool :=
  match words?, idx? with
  | some ws, some idx =>
    match ws.findIdx? (fun w => w ≠ "" && !(w.data.all pyIsPunctChar)) with
    | some i => i == idx
    | none => false
  | _, _ => false

/-- `next_is_question_particle` inside `_disambiguate`
(morphology.py:699-706): the first non-punctuation word after the index. -/
def nextIsQuestionParticle (words? : Option (List String)) (idx? : Option Nat) : Bool :=
  match words?, idx? with
  | some ws, some idx =>
    match (ws.drop (idx + 1)).find? (fun w => !isPunctuationToken w) with
    | some w => isQuestionParticle w
    | none => false
  | _, _ => false

/-- `is_final_lexical_position` inside `_disambiguate`
(morphology.py:708-714): the word is the last non-punctuation position. -/
def isFinalLexicalPosition (words? : Option (List String)) (idx? : Option Nat) : Bool :=
  match words?, idx? with
  | some ws, some idx =>
    match ws.reverse.findIdx? (fun w => !isPunctuationToken w) with
    | some k => (ws.length - 1 - k) == idx
    | none => false
  | _, _ => false

/-- The processor state consulted by `_disambiguate` and `_lookup_lexicon`:
the closed-class lexicon (`form_lower → [(upos, feats), ...]`), the tag
mapper's `to_ud_pos` when loaded, and the to-FST transliteration function when
script bridging is active (`_needs_translit and _to_fst_translit`). -/
structure MorphState where
  lexicon : List (String × List (String × String))
  tagMapper : Option (String → String)
  toFstTranslit : Option (String → String)

/-- `_lookup_lexicon` (morphology.py:401-419). -/
def lookupLexicon (st : MorphState) (text : String) : List (String × String) :=
  let e1 := (assocLookup st.lexicon (pyLowerStr text)).getD []
  if e1 ≠ [] then e1
  else
    match st.toFstTranslit with
    | some tr => (assocLookup st.lexicon (pyLowerStr (tr text))).getD []
    | none => []

/-- `verbal_tags` (morphology.py:721-739). -/
def verbalTags : List String :=
  ["past", "pres", "fut", "aor", "ifi", "ind", "imp", "opt", "cond", "neces",
   "prog", "pass", "rcp", "inf", "ger", "part", "cvb"]

/-- `case_tags` (morphology.py:740). -/
def caseTags : List String :=
  ["nom", "gen", "dat", "acc", "abl", "loc", "ins", "equ"]

/-- The finite-tense set of the sentence-final `+1` bonus
(morphology.py:748). -/
def finiteTenseTags : List String := ["past", "pres", "fut", "aor", "ifi"]

/-- The finite mood/tense set of the non-final `-2` penalty
(morphology.py:754). -/
def finiteMoodTenseTags : List String :=
  ["past", "pres", "fut", "aor", "ifi", "ind", "imp", "opt", "cond", "neces"]

/-- `pos_priority` (morphology.py:688-697), default 99. -/
def posPriorityTable : List (String × Nat) :=
  [("v", 0), ("vaux", 1), ("n", 2), ("np", 3), ("adj", 4), ("adv", 5),
   ("prn", 6), ("det", 7)]

def posPriority (p : String) : Nat :=
  (assocLookup posPriorityTable p).getD 99

/-- `surface_text and surface_text[:1].isupper()` (morphology.py:763). -/
def pyCapitalized (s : String) : Bool :=
  match s.data with
  | [] => false
  | c :: _ => pyIsUpperChar c

/-- `context_score` inside `_disambiguate` (morphology.py:717-779), with the
sentence-position booleans `final_lexical` and `next_is_question_particle()`
passed in (they are computed from the sentence by the callers below). -/
def contextScore (st : MorphState) (finalLexical nextQ : Bool)
    (surfaceText : Option String) (r : Reading) : Int :=
  let feats := r.feats
  let hasVerbal := feats.any (fun t => t ∈ verbalTags)
  let hasCase := feats.any (fun t => t ∈ caseTags)
  let positional : Int :=
    if finalLexical then
      (if r.pos = "v" ∨ r.pos = "vaux" then 3 else 0)
      + (if r.pos = "n" ∨ r.pos = "np" then -2 else 0)
      + (if feats.any (fun t => t ∈ finiteTenseTags) then 1 else 0)
    else
      if (r.pos = "v" ∨ r.pos = "vaux")
          ∧ feats.any (fun t => t ∈ finiteMoodTenseTags) = true
          ∧ nextQ = false then -2
      else 0
  let artifact : Int :=
    if r.pos ∈ (["n", "np", "adj", "adv", "prn", "det", "num"] : List String)
        ∧ hasVerbal = true then -3
    else 0
  let verbCase : Int :=
    if (r.pos = "v" ∨ r.pos = "vaux") ∧ hasCase = true ∧ "part" ∉ feats then -1
    else 0
  let capital : Int :=
    match surfaceText with
    | some s =>
      if pyCapitalized s then
        (if r.pos = "np" then 1 else 0)
        + (if (r.pos = "v" ∨ r.pos = "vaux") ∧ "imp" ∈ feats then -2 else 0)
      else 0
    | none => 0
  let lexBoost : Int :=
    match surfaceText with
    | some s =>
      if st.lexicon ≠ [] then
        let lexEntries := lookupLexicon st s
        if lexEntries ≠ [] then
          match st.tagMapper with
          | some m =>
            if (lexEntries.map Prod.fst).contains (m r.pos) then 2 else 0
          | none => 0
        else 0
      else 0
    | none => 0
  positional + artifact + verbCase + capital + lexBoost

/-- The sentinel returned for an empty reading list (morphology.py:684):
`{"lemma": "", "pos": "x", "feats": []}`. The Python dict lacks `weight` and
`raw`; they are never read, and are filled with `0` and `""` here. -/
def sentinelReading : Reading := ⟨"", "x", [], 0, ""⟩

/-- The composite sort key of `_disambiguate` (morphology.py:781-788):
`(weight, -context_score, pos_priority, len(feats))`. -/
def sortKey (st : MorphState) (fl nq : Bool) (surf : Option String)
    (r : Reading) : ℚ × Int × Nat × Nat :=
  (r.weight, -(contextScore st fl nq surf r), posPriority r.pos, r.feats.length)

/-- Python's lexicographic `<` on the 4-component sort key tuples. -/
def keyLt (a b : ℚ × Int × Nat × Nat) : Bool :=
  if a.1 < b.1 then true
  else if b.1 < a.1 then false
  else if a.2.1 < b.2.1 then true
  else if b.2.1 < a.2.1 then false
  else if a.2.2.1 < b.2.2.1 then true
  else if b.2.2.1 < a.2.2.1 then false
  else decide (a.2.2.2 < b.2.2.2)

/-- `ApertiumMorphProcessor._disambiguate` (morphology.py:675-789). The
stable `readings.sort(key=...)` followed by `readings[0]` returns the first
element of the list attaining the minimal key; it is modelled by a left fold
that replaces the current best only on a strictly smaller key. -/
def disambiguate (st : MorphState) (readings : List Reading)
    (words? : Option (List String)) (idx? : Option Nat)
    (surf? : Option String) : Reading :=
  match readings with
  | [] => sentinelReading
  | [r] => r
  | r :: rs =>
    let fl := isFinalLexicalPosition words? idx?
    let nq := nextIsQuestionParticle words? idx?
    rs.foldl (fun best cand =>
      if keyLt (sortKey st fl nq surf? cand) (sortKey st fl nq surf? best)
      then cand else best) r

/-- The per-word assignment of `process` (morphology.py:213-231) for a word
whose FST readings are non-empty, with no script bridging and the common
Turkic tag mapper: disambiguate, map the POS, map and clean the features.
Returns `(lemma, upos, feats)`. -/
def morphAssign (readings : List Reading) (words? : Option (List String))
    (idx? : Option Nat) (surf? : Option String) : String × String × String :=
  let st : MorphState := ⟨[], some toUdPos, none⟩
  let best := disambiguate st readings words? idx? surf?
  let upos := toUdPos best.pos
  let rawFeats := toUdFeats best.feats
  (best.lemma_, upos, normalizeUdFeatsForUpos upos rawFeats)

/-! ### Surface normalization (`_normalize_for_lookup`, `_normalize_hyphens`,
`_strip_diacritics`, `_lookup_variants`, morphology.py:266-316).

The Unicode normal forms NFKC/NFD/NFC and the combining-mark category test are
calls into the external `unicodedata` library; they are carried as a parameter
`UnicodeEnv`, so the theorems below hold for every behaviour of that
collaborator. `stdUnicodeEnv` instantiates it for the concrete inputs
evaluated here, which are normalization-stable (the normal forms act as the
identity on them) and whose combining marks lie in the basic combining
diacritics block. -/

/-- The external `unicodedata` collaborator: `normalize("NFKC", ·)`,
`normalize("NFD", ·)`, `normalize("NFC", ·)`, and `category(ch) == "Mn"`. -/
structure UnicodeEnv where
  nfkc : String → String
  nfd : String → String
  nfc : String → String
  isMn : Char → Bool

/-- Instance of `UnicodeEnv` for normalization-stable inputs. -/
def stdUnicodeEnv : UnicodeEnv :=
  ⟨id, id, id, fun c => 0x300 ≤ c.val.toNat && c.val.toNat ≤ 0x36F⟩

/-- The zero-width characters removed by `_normalize_for_lookup`
(morphology.py:269). -/
def zeroWidthChars : List Char := ['​', '‌', '‍', '﻿']

/-- `apostrophe_variants` (morphology.py:271-283). -/
def apostropheVariants : List Char :=
  ['’', '‘', 'ʼ', 'ʻ', 'ʹ', '`', '´',
   'ˊ', 'ˋ', '′', 'ʽ']

/-- `re.sub(r"'+", "'", s)`: collapse apostrophe runs to one apostrophe; the
flag records whether the previous character was an apostrophe (inside a run). -/
def collapseAposAux (inRun : Bool) : List Char → List Char
  | [] => []
  | c :: cs =>
    if c = '\x27' then
      if inRun then collapseAposAux true cs
      else '\x27' :: collapseAposAux true cs
    else c :: collapseAposAux false cs

def collapseApostrophes (cs : List Char) : List Char :=
  collapseAposAux false cs

/-- Python `s.rstrip("'")`. -/
def rstripApostrophes (cs : List Char) : List Char :=
  (cs.reverse.dropWhile (fun c => c = '\x27')).reverse

/-- `ApertiumMorphProcessor._normalize_for_lookup` (morphology.py:266-288):
NFKC-normalize, strip zero-width characters, fold apostrophe variants to `'`,
collapse apostrophe runs, and drop a trailing apostrophe (keeping a length-1
result intact). -/
def normalizeForLookup (env : UnicodeEnv) (surface : String) : String :=
  let n1 := (env.nfkc surface).data
  let n2 := n1.filter (fun ch => ch ∉ zeroWidthChars)
  let n3 := n2.map (fun ch => if ch ∈ apostropheVariants then '\x27' else ch)
  let n4 := collapseApostrophes n3
  let n5 :=
    if n4.getLast? = some '\x27' && n4.length > 1 then rstripApostrophes n4
    else n4
  String.mk n5

/-- `_HYPHEN_CHARS` (morphology.py:38). -/
def HYPHEN_CHARS : List Char := ['-', '‐', '‑', '‒', '–', '—', '―']

/-- `ApertiumMorphProcessor._normalize_hyphens` (morphology.py:290-291). -/
def normalizeHyphens (s : String) : String :=
  String.mk (s.data.map (fun ch => if ch ∈ HYPHEN_CHARS then '-' else ch))

/-- `ApertiumMorphProcessor._strip_diacritics` (morphology.py:293-297):
NFD-decompose, drop combining marks, NFC-recompose. -/
def stripDiacritics (env : UnicodeEnv) (text : String) : String :=
  env.nfc (String.mk ((env.nfd text).data.filter (fun ch => !env.isMn ch)))

/-- The `add` closure of `_lookup_variants` (morphology.py:302-304): append a
candidate only when it is non-empty and not already present. -/
def addVariant (acc : List String) (v : String) : List String :=
  if v ≠ "" && !acc.contains v then acc ++ [v] else acc

/-- The six candidate strings of `_lookup_variants`, in the order they are
offered to `add`. -/
def variantSources (env : UnicodeEnv) (surface : String) : List String :=
  let normalized := normalizeHyphens (normalizeForLookup env surface)
  let stripped := stripDiacritics env normalized
  [surface, pyLowerStr surface, normalized, pyLowerStr normalized,
   stripped, pyLowerStr stripped]

/-- `ApertiumMorphProcessor._lookup_variants` (morphology.py:299-316). -/
def lookupVariants (env : UnicodeEnv) (surface : String) : List String :=
  (variantSources env surface).foldl addVariant []

/-! ### Script detection (`turkicnlp/scripts/detector.py`) and the `Script`
enum (`turkicnlp/scripts/__init__.py`). -/

/-- The `Script` enum; values are the ISO 15924 codes used as `.value`. -/
inductive Script where
  | Latn
  | Cyrl
  | Arab
  | Orkh
  deriving DecidableEq, Repr

/-- `Script.value` (scripts/__init__.py:24-28). -/
def Script.value : Script → String
  | .Latn => "Latn"
  | .Cyrl => "Cyrl"
  | .Arab => "Arab"
  | .Orkh => "Orkh"

/-- `SCRIPT_RANGES` (detector.py:18-39), in dict insertion order. -/
def SCRIPT_RANGES : List (Script × List (Nat × Nat)) :=
  [(.Latn, [(0x0041, 0x024F), (0x1E00, 0x1EFF)]),
   (.Cyrl, [(0x0400, 0x04FF), (0x0500, 0x052F), (0x2DE0, 0x2DFF),
            (0xA640, 0xA69F)]),
   (.Arab, [(0x0600, 0x06FF), (0x0750, 0x077F), (0x08A0, 0x08FF),
            (0xFB50, 0xFDFF), (0xFE70, 0xFEFF)]),
   (.Orkh, [(0x10C00, 0x10C4F)])]

/-- `_char_to_script` (detector.py:42-52), with the external
`unicodedata.category(char).startswith(("N", "P", "Z", "S", "C"))` test
carried as the parameter `neutral`: `none` for neutral characters and for
characters in no script range, otherwise the first script whose range
contains the code point. -/
def charToScript (neutral : Char → Bool) (c : Char) : Option Script :=
  if neutral c then none
  else
    (SCRIPT_RANGES.find? (fun sr =>
      sr.2.any (fun r => r.1 ≤ c.val.toNat && c.val.toNat ≤ r.2))).map
      (fun sr => sr.1)

/-- The per-character script occurrences of `detect_script` in scan order:
the stream of `counts[script] += 1` updates. -/
def scriptOccurrences (neutral : Char → Bool) (text : String) : List Script :=
  text.data.filterMap (charToScript neutral)

/-- The distinct elements of a list in order of first occurrence: the key
order of the Python `Counter` built by `detect_script`. Structural recursion
on a step-count bound; filtering only shortens the tail, so the initial bound
`l.length` used by `dedupFirst` never runs out. -/
def dedupFirstF {α : Type} [DecidableEq α] : Nat → List α → List α
  | _, [] => []
  | 0, _ => []
  | fuel + 1, x :: xs => x :: dedupFirstF fuel (xs.filter (fun y => y ≠ x))

def dedupFirst {α : Type} [DecidableEq α] (l : List α) : List α :=
  dedupFirstF l.length l

/-- `Counter.most_common(1)[0][0]`: the stable sort by descending count
returns the earliest-inserted key among those of maximal count; modelled as a
left fold over the keys in insertion order that replaces the current best only
on a strictly greater count. -/
def mostCommonFirst {α : Type} [DecidableEq α] (occs : List α) : Option α :=
  match dedupFirst occs with
  | [] => none
  | x :: xs =>
    some (xs.foldl (fun best s => if occs.count best < occs.count s then s else best) x)

/-- `detect_script` (detector.py:55-79): `none` models the
`ValueError("No script characters detected in text.")`. -/
def detectScript (neutral : Char → Bool) (text : String) : Option Script :=
  mostCommonFirst (scriptOccurrences neutral text)

/-- Concrete model of the neutrality test
`unicodedata.category(char).startswith(("N", "P", "Z", "S", "C"))` for the
character repertoire exercised below: ASCII controls, digits, punctuation,
symbols and whitespace, the multiplication and division signs (category Sm,
the only non-letter code points of the Latin range below 0x24F), and the
punctuation/space characters of `pyIsPunctChar`/`pyIsSpaceChar`. Letters and
combining marks are non-neutral. -/
def stdNeutral (c : Char) : Bool :=
  let n := c.val.toNat
  (n < 0x41) || (0x5B ≤ n && n ≤ 0x60) || (0x7B ≤ n && n ≤ 0x7F)
  || n = 0xD7 || n = 0xF7
  || pyIsPunctChar c || pyIsSpaceChar c

/-! ### Transliteration engine (`turkicnlp/scripts/transliterator.py`). -/

/-- The backquote character (U+0060), an apostrophe variant. -/
def backquoteChar : Char := Char.ofNat 0x60

/-- `mapped[0].upper() + mapped[1:] if len(mapped) > 1 else mapped.upper()`
(transliterator.py:88-92): for an empty or one-character output both branches
upper-case every character, so one formula covers all lengths. -/
def recaseMapped (mapped : String) : String :=
  match mapped.data with
  | [] => ""
  | c :: rest => String.mk (pyUpperChar c :: rest)

/-- One chunk test of the greedy matcher (transliterator.py:80-96): a direct
table hit, else a case-folded hit re-cased when the chunk starts uppercase. -/
def matchChunk (tbl : List (String × String)) (chunk : String) : Option String :=
  match assocLookup tbl chunk with
  | some out => some out
  | none =>
    match assocLookup tbl (pyLowerStr chunk) with
    | some out =>
      some (if pyIsUpperChar (chunk.data.headD 'a') then recaseMapped out else out)
    | none => none

/-- Chunk test of the Uyghur Latin→Arabic matcher (transliterator.py:305-318):
the case-folded hit is used without re-casing (Arabic has no case). -/
def matchChunkNoCase (tbl : List (String × String)) (chunk : String) : Option String :=
  match assocLookup tbl chunk with
  | some out => some out
  | none => assocLookup tbl (pyLowerStr chunk)

/-- The greedy length loop `for length in range(min(4, len(text) - i), lo-1, -1)`:
try chunk lengths from `k` down to `lo`, returning the mapped output and the
consumed length of the first hit. -/
def tryMatchLen (mc : String → Option String) (cs : List Char) (lo : Nat) :
    Nat → Option (String × Nat)
  | 0 => none
  | n + 1 =>
    if lo ≤ n + 1 && n + 1 ≤ cs.length then
      match mc (String.mk (cs.take (n + 1))) with
      | some out => some (out, n + 1)
      | none => tryMatchLen mc cs lo n
    else tryMatchLen mc cs lo n

theorem tryMatchLen_bounds {mc : String → Option String} {cs : List Char}
    {lo k : Nat} {out : String} {len : Nat}
    (h : tryMatchLen mc cs lo k = some (out, len)) :
    1 ≤ len ∧ len ≤ cs.length := by
  induction k with
  | zero => simp [tryMatchLen] at h
  | succ n ih =>
    simp only [tryMatchLen] at h
    by_cases hc : (lo ≤ n + 1 && n + 1 ≤ cs.length) = true
    · rw [if_pos hc] at h
      cases hm : mc (String.mk (cs.take (n + 1))) with
      | some o => rw [hm] at h; simp only [Option.some.injEq, Prod.mk.injEq] at h
                  obtain ⟨-, h2⟩ := h
                  subst h2
                  simp only [Bool.and_eq_true, decide_eq_true_eq] at hc
                  omega
      | none => rw [hm] at h; exact ih h
    · rw [if_neg hc] at h; exact ih h

/-- The generic greedy longest-match loop of `Transliterator.transliterate`
(transliterator.py:74-100): match chunks of length 4 down to 1, pass
unmatched characters through. Structural recursion on a step-count bound;
each step consumes at least one character (`tryMatchLen_bounds`), so the
initial bound `cs.length` used by `genericTranslit` never runs out. -/
def genericTranslitF (tbl : List (String × String)) : Nat → List Char → String
  | _, [] => ""
  | 0, _ => ""
  | fuel + 1, c :: rest =>
    match tryMatchLen (matchChunk tbl) (c :: rest) 1 (min 4 (rest.length + 1)) with
    | some (out, len) => out ++ genericTranslitF tbl fuel ((c :: rest).drop len)
    | none => String.singleton c ++ genericTranslitF tbl fuel rest

def genericTranslit (tbl : List (String × String)) (cs : List Char) : String :=
  genericTranslitF tbl cs.length cs

/-- `prev in prev_vowelish` set of `_transliterate_uzb_cyrl_to_latn`
(transliterator.py:106). -/
def uzbPrevVowelish : List Char :=
  ['а','А','е','Е','ё','Ё','и','И','й','Й','о','О','у','У','ў','Ў',
   'ы','Ы','э','Э','ю','Ю','я','Я','ь','Ь','ъ','Ъ']

/-- `word_initial = i == 0 or not text[i - 1].isalpha()`, with `prev` the
original-text character before the current position (`none` at position 0). -/
def wordInitial (prev : Option Char) : Bool :=
  match prev with
  | none => true
  | some p => !pyIsAlphaChar p

/-- `Transliterator._transliterate_uzb_cyrl_to_latn` (transliterator.py:102-154):
greedy multi-character matches first (lengths 4 down to 2), then the
context-sensitive `е` rule (`ye` word-initially or after a vowelish letter,
plain `e` otherwise), then single-character mapping with pass-through. -/
def uzbCyrlToLatnF (tbl : List (String × String)) :
    Nat → Option Char → List Char → String
  | _, _, [] => ""
  | 0, _, _ => ""
  | fuel + 1, prev, c :: rest =>
    match tryMatchLen (matchChunk tbl) (c :: rest) 2 (min 4 (rest.length + 1)) with
    | some (out, len) =>
      out ++ uzbCyrlToLatnF tbl fuel (((c :: rest).take len).getLast?)
        ((c :: rest).drop len)
    | none =>
      if c = 'е' ∨ c = 'Е' then
        let needsY := wordInitial prev
          || (match prev with | some p => p ∈ uzbPrevVowelish | none => false)
        (if needsY then (if c = 'е' then "ye" else "Ye")
         else (if c = 'е' then "e" else "E"))
          ++ uzbCyrlToLatnF tbl fuel (some c) rest
      else
        ((matchChunk tbl (String.singleton c)).getD (String.singleton c))
          ++ uzbCyrlToLatnF tbl fuel (some c) rest

def uzbCyrlToLatnAux (tbl : List (String × String)) (prev : Option Char)
    (cs : List Char) : String :=
  uzbCyrlToLatnF tbl cs.length prev cs

/-- The `prev` letters forcing `ýe` in `_transliterate_tuk_cyrl_to_latn`
(transliterator.py:206). -/
def tukYeTriggers : List Char := ['и','И','ө','Ө','ү','Ү','ә','Ә','ъ','Ъ']

/-- `Transliterator._transliterate_tuk_cyrl_to_latn` (transliterator.py:156-228):
greedy multi-character matches first, hard/soft signs dropped, context-sensitive
`е` (`ýe` word-initially or after и/ө/ү/ә/ъ), then single-character mapping. -/
def tukCyrlToLatnF (tbl : List (String × String)) :
    Nat → Option Char → List Char → String
  | _, _, [] => ""
  | 0, _, _ => ""
  | fuel + 1, prev, c :: rest =>
    match tryMatchLen (matchChunk tbl) (c :: rest) 2 (min 4 (rest.length + 1)) with
    | some (out, len) =>
      out ++ tukCyrlToLatnF tbl fuel (((c :: rest).take len).getLast?)
        ((c :: rest).drop len)
    | none =>
      if c = 'ъ' ∨ c = 'Ъ' ∨ c = 'ь' ∨ c = 'Ь' then
        tukCyrlToLatnF tbl fuel (some c) rest
      else if c = 'е' ∨ c = 'Е' then
        let needsY := wordInitial prev
          || (match prev with | some p => p ∈ tukYeTriggers | none => false)
        (if needsY then (if c = 'е' then "ýe" else "Ýe")
         else (if c = 'е' then "e" else "E"))
          ++ tukCyrlToLatnF tbl fuel (some c) rest
      else
        ((matchChunk tbl (String.singleton c)).getD (String.singleton c))
          ++ tukCyrlToLatnF tbl fuel (some c) rest

def tukCyrlToLatnAux (tbl : List (String × String)) (prev : Option Char)
    (cs : List Char) : String :=
  tukCyrlToLatnF tbl cs.length prev cs

/-- `Transliterator._transliterate_tuk_latn_to_cyrl` (transliterator.py:230-262):
the `ýe`-digraph collapses to `е`/`Е` before the generic greedy matcher runs. -/
def tukLatnToCyrlF (tbl : List (String × String)) : Nat → List Char → String
  | _, [] => ""
  | 0, _ => ""
  | fuel + 1, c :: rest =>
    match (match rest with
      | c2 :: _ =>
        if [c, c2] = ['ý','e'] ∨ [c, c2] = ['Ý','e'] ∨ [c, c2] = ['Ý','E']
            ∨ [c, c2] = ['ý','E'] then
          some (if [c, c2] = ['ý','e'] ∨ [c, c2] = ['ý','E'] then "е" else "Е")
        else none
      | [] => none) with
    | some out => out ++ tukLatnToCyrlF tbl fuel ((c :: rest).drop 2)
    | none =>
      match tryMatchLen (matchChunk tbl) (c :: rest) 1 (min 4 (rest.length + 1)) with
      | some (out, len) => out ++ tukLatnToCyrlF tbl fuel ((c :: rest).drop len)
      | none => String.singleton c ++ tukLatnToCyrlF tbl fuel rest

def tukLatnToCyrlAux (tbl : List (String × String)) (cs : List Char) : String :=
  tukLatnToCyrlF tbl cs.length cs

/-- `initial_vowel_map` of `_transliterate_uig_latn_to_arab`
(transliterator.py:280-297). -/
def uigInitialVowelMap : List (Char × String) :=
  [('a', "ئا"), ('e', "ئە"), ('o', "ئو"), ('u', "ئۇ"), ('ö', "ئۆ"),
   ('ü', "ئۈ"), ('é', "ئې"), ('i', "ئى"),
   ('A', "ئا"), ('E', "ئە"), ('O', "ئو"), ('U', "ئۇ"), ('Ö', "ئۆ"),
   ('Ü', "ئۈ"), ('É', "ئې"), ('I', "ئى")]

/-- `Transliterator._transliterate_uig_latn_to_arab` (transliterator.py:276-322):
word-initial bare vowels take the hamza-carrier form, then the greedy matcher
(case-folded hits used without re-casing). -/
def uigLatnToArabF (tbl : List (String × String)) :
    Nat → Option Char → List Char → String
  | _, _, [] => ""
  | 0, _, _ => ""
  | fuel + 1, prev, c :: rest =>
    match (if wordInitial prev then
            (uigInitialVowelMap.find? (fun p => p.1 = c)).map (fun p => p.2)
           else none) with
    | some out => out ++ uigLatnToArabF tbl fuel (some c) rest
    | none =>
      match tryMatchLen (matchChunkNoCase tbl) (c :: rest) 1 (min 4 (rest.length + 1)) with
      | some (out, len) =>
        out ++ uigLatnToArabF tbl fuel (((c :: rest).take len).getLast?)
          ((c :: rest).drop len)
      | none => String.singleton c ++ uigLatnToArabF tbl fuel (some c) rest

def uigLatnToArabAux (tbl : List (String × String)) (prev : Option Char)
    (cs : List Char) : String :=
  uigLatnToArabF tbl cs.length prev cs

/-- `TRANSLITERATION_TABLES["kaz_Cyrl_to_Latn"]` (transliterator.py). -/
def kazCyrlToLatnTable : List (String × String) :=
  [("ә", "ä"), ("Ә", "Ä"), ("ғ", "ğ"), ("Ғ", "Ğ"), ("қ", "q"), ("Қ", "Q"), ("ң", "ñ"), 
   ("Ң", "Ñ"), ("ө", "ö"), ("Ө", "Ö"), ("ұ", "ū"), ("Ұ", "Ū"), ("ү", "ü"), ("Ү", "Ü"), 
   ("і", "ı"), ("І", "I"), ("һ", "h"), ("Һ", "H"), ("ш", "sh"), ("Ш", "Sh"), ("ч", "ch"), 
   ("Ч", "Ch"), ("ж", "j"), ("Ж", "J"), ("щ", "shch"), ("Щ", "Shch"), ("а", "a"), ("А", "A"), 
   ("б", "b"), ("Б", "B"), ("в", "v"), ("В", "V"), ("г", "g"), ("Г", "G"), ("д", "d"), 
   ("Д", "D"), ("е", "e"), ("Е", "E"), ("ё", "yo"), ("Ё", "Yo"), ("з", "z"), ("З", "Z"), 
   ("и", "ı"), ("И", "I"), ("й", "ı"), ("Й", "I"), ("к", "k"), ("К", "K"), ("л", "l"), 
   ("Л", "L"), ("м", "m"), ("М", "M"), ("н", "n"), ("Н", "N"), ("о", "o"), ("О", "O"), 
   ("п", "p"), ("П", "P"), ("р", "r"), ("Р", "R"), ("с", "s"), ("С", "S"), ("т", "t"), 
   ("Т", "T"), ("у", "u"), ("У", "U"), ("ф", "f"), ("Ф", "F"), ("х", "h"), ("Х", "H"), 
   ("ц", "ts"), ("Ц", "Ts"), ("э", "e"), ("Э", "E"), ("ъ", ""), ("ь", ""), ("ы", "y"), 
   ("Ы", "Y"), ("ю", "yu"), ("Ю", "Yu"), ("я", "ya"), ("Я", "Ya")]

/-- `TRANSLITERATION_TABLES["kaz_Latn_to_Cyrl"]` (transliterator.py). -/
def kazLatnToCyrlTable : List (String × String) :=
  [("shch", "щ"), ("Shch", "Щ"), ("sh", "ш"), ("Sh", "Ш"), ("SH", "Ш"), ("ch", "ч"), 
   ("Ch", "Ч"), ("CH", "Ч"), ("yu", "ю"), ("Yu", "Ю"), ("YU", "Ю"), ("ya", "я"), ("Ya", "Я"), 
   ("YA", "Я"), ("yo", "ё"), ("Yo", "Ё"), ("YO", "Ё"), ("ts", "ц"), ("Ts", "Ц"), ("TS", "Ц"), 
   ("ä", "ә"), ("Ä", "Ә"), ("ğ", "ғ"), ("Ğ", "Ғ"), ("q", "қ"), ("Q", "Қ"), ("ñ", "ң"), 
   ("Ñ", "Ң"), ("ö", "ө"), ("Ö", "Ө"), ("ū", "ұ"), ("Ū", "Ұ"), ("ü", "ү"), ("Ü", "Ү"), 
   ("ı", "і"), ("I", "І"), ("a", "а"), ("A", "А"), ("b", "б"), ("B", "Б"), ("v", "в"), 
   ("V", "В"), ("g", "г"), ("G", "Г"), ("d", "д"), ("D", "Д"), ("e", "е"), ("E", "Е"), 
   ("z", "з"), ("Z", "З"), ("j", "ж"), ("J", "Ж"), ("k", "к"), ("K", "К"), ("l", "л"), 
   ("L", "Л"), ("m", "м"), ("M", "М"), ("n", "н"), ("N", "Н"), ("o", "о"), ("O", "О"), 
   ("p", "п"), ("P", "П"), ("r", "р"), ("R", "Р"), ("s", "с"), ("S", "С"), ("t", "т"), 
   ("T", "Т"), ("u", "у"), ("U", "У"), ("f", "ф"), ("F", "Ф"), ("h", "х"), ("H", "Х"), 
   ("y", "ы"), ("Y", "Ы")]

/-- `TRANSLITERATION_TABLES["uzb_Cyrl_to_Latn"]` (transliterator.py). -/
def uzbCyrlToLatnTable : List (String × String) :=
  [("ш", "sh"), ("Ш", "Sh"), ("ч", "ch"), ("Ч", "Ch"), ("ғ", "g\x27"), ("Ғ", "G\x27"), 
   ("қ", "q"), ("Қ", "Q"), ("ҳ", "h"), ("Ҳ", "H"), ("ў", "o\x27"), ("Ў", "O\x27"), 
   ("нг", "ng"), ("Нг", "Ng"), ("ж", "j"), ("Ж", "J"), ("а", "a"), ("А", "A"), ("б", "b"), 
   ("Б", "B"), ("в", "v"), ("В", "V"), ("г", "g"), ("Г", "G"), ("д", "d"), ("Д", "D"), 
   ("е", "e"), ("Е", "E"), ("ё", "yo"), ("Ё", "Yo"), ("з", "z"), ("З", "Z"), ("и", "i"), 
   ("И", "I"), ("й", "y"), ("Й", "Y"), ("к", "k"), ("К", "K"), ("л", "l"), ("Л", "L"), 
   ("м", "m"), ("М", "M"), ("н", "n"), ("Н", "N"), ("о", "o"), ("О", "O"), ("п", "p"), 
   ("П", "P"), ("р", "r"), ("Р", "R"), ("с", "s"), ("С", "S"), ("т", "t"), ("Т", "T"), 
   ("у", "u"), ("У", "U"), ("ф", "f"), ("Ф", "F"), ("х", "x"), ("Х", "X"), ("ц", "ts"), 
   ("Ц", "Ts"), ("э", "e"), ("Э", "E"), ("ю", "yu"), ("Ю", "Yu"), ("я", "ya"), ("Я", "Ya"), 
   ("ъ", "\x27"), ("ь", "")]

/-- `TRANSLITERATION_TABLES["uig_Arab_to_Latn"]` (transliterator.py). -/
def uigArabToLatnTable : List (String × String) :=
  [("ئا", "a"), ("ئە", "e"), ("ئو", "o"), ("ئۇ", "u"), ("ئۆ", "ö"), ("ئۈ", "ü"), ("ئې", "é"), 
   ("ئى", "i"), ("ا", "a"), ("ە", "e"), ("ب", "b"), ("پ", "p"), ("ت", "t"), ("ج", "j"), 
   ("چ", "ch"), ("خ", "x"), ("د", "d"), ("ر", "r"), ("ز", "z"), ("ژ", "zh"), ("س", "s"), 
   ("ش", "sh"), ("غ", "gh"), ("ف", "f"), ("ق", "q"), ("ك", "k"), ("گ", "g"), ("ڭ", "ng"), 
   ("ل", "l"), ("م", "m"), ("ن", "n"), ("ھ", "h"), ("و", "o"), ("ۇ", "u"), ("ۆ", "ö"), 
   ("ۈ", "ü"), ("ۋ", "w"), ("ې", "é"), ("ى", "i"), ("ي", "y"), ("ئ", "")]

/-- `TRANSLITERATION_TABLES["tuk_Cyrl_to_Latn"]` (transliterator.py). -/
def tukCyrlToLatnTable : List (String × String) :=
  [("щ", "şç"), ("Щ", "Şç"), ("ә", "ä"), ("Ә", "Ä"), ("җ", "j"), ("Җ", "J"), ("ң", "ň"), 
   ("Ң", "Ň"), ("ө", "ö"), ("Ө", "Ö"), ("ү", "ü"), ("Ү", "Ü"), ("а", "a"), ("А", "A"), 
   ("б", "b"), ("Б", "B"), ("в", "w"), ("В", "W"), ("г", "g"), ("Г", "G"), ("д", "d"), 
   ("Д", "D"), ("е", "e"), ("Е", "E"), ("ё", "ýo"), ("Ё", "Ýo"), ("ж", "ž"), ("Ж", "Ž"), 
   ("з", "z"), ("З", "Z"), ("и", "i"), ("И", "I"), ("й", "ý"), ("Й", "Ý"), ("к", "k"), 
   ("К", "K"), ("л", "l"), ("Л", "L"), ("м", "m"), ("М", "M"), ("н", "n"), ("Н", "N"), 
   ("о", "o"), ("О", "O"), ("п", "p"), ("П", "P"), ("р", "r"), ("Р", "R"), ("с", "s"), 
   ("С", "S"), ("т", "t"), ("Т", "T"), ("у", "u"), ("У", "U"), ("ф", "f"), ("Ф", "F"), 
   ("х", "h"), ("Х", "H"), ("ц", "ts"), ("Ц", "Ts"), ("ч", "ç"), ("Ч", "Ç"), ("ш", "ş"), 
   ("Ш", "Ş"), ("ы", "y"), ("Ы", "Y"), ("э", "e"), ("Э", "E"), ("ю", "ýu"), ("Ю", "Ýu"), 
   ("я", "ýa"), ("Я", "Ýa"), ("ъ", ""), ("ь", "")]

/-- `TRANSLITERATION_TABLES["tuk_Latn_to_Cyrl"]` (transliterator.py). -/
def tukLatnToCyrlTable : List (String × String) :=
  [("şç", "щ"), ("Şç", "Щ"), ("ýo", "ё"), ("Ýo", "Ё"), ("ÝO", "Ё"), ("ýu", "ю"), ("Ýu", "Ю"), 
   ("ÝU", "Ю"), ("ýa", "я"), ("Ýa", "Я"), ("ÝA", "Я"), ("ts", "ц"), ("Ts", "Ц"), ("TS", "Ц"), 
   ("ä", "ә"), ("Ä", "Ә"), ("ň", "ң"), ("Ň", "Ң"), ("ö", "ө"), ("Ö", "Ө"), ("ü", "ү"), 
   ("Ü", "Ү"), ("ç", "ч"), ("Ç", "Ч"), ("ş", "ш"), ("Ş", "Ш"), ("ž", "ж"), ("Ž", "Ж"), 
   ("ý", "й"), ("Ý", "Й"), ("a", "а"), ("A", "А"), ("b", "б"), ("B", "Б"), ("d", "д"), 
   ("D", "Д"), ("e", "е"), ("E", "Е"), ("f", "ф"), ("F", "Ф"), ("g", "г"), ("G", "Г"), 
   ("h", "х"), ("H", "Х"), ("i", "и"), ("I", "И"), ("j", "җ"), ("J", "Җ"), ("k", "к"), 
   ("K", "К"), ("l", "л"), ("L", "Л"), ("m", "м"), ("M", "М"), ("n", "н"), ("N", "Н"), 
   ("o", "о"), ("O", "О"), ("p", "п"), ("P", "П"), ("r", "р"), ("R", "Р"), ("s", "с"), 
   ("S", "С"), ("t", "т"), ("T", "Т"), ("u", "у"), ("U", "У"), ("w", "в"), ("W", "В"), 
   ("y", "ы"), ("Y", "Ы"), ("z", "з"), ("Z", "З")]

/-- `TRANSLITERATION_TABLES["crh_Cyrl_to_Latn"]` (transliterator.py). -/
def crhCyrlToLatnTable : List (String × String) :=
  [("гъ", "ğ"), ("Гъ", "Ğ"), ("дж", "c"), ("Дж", "C"), ("къ", "q"), ("Къ", "Q"), ("нъ", "ñ"), 
   ("Нъ", "Ñ"), ("а", "a"), ("А", "A"), ("б", "b"), ("Б", "B"), ("в", "v"), ("В", "V"), 
   ("г", "g"), ("Г", "G"), ("д", "d"), ("Д", "D"), ("е", "e"), ("Е", "E"), ("ж", "j"), 
   ("Ж", "J"), ("з", "z"), ("З", "Z"), ("и", "i"), ("И", "İ"), ("й", "y"), ("Й", "Y"), 
   ("к", "k"), ("К", "K"), ("л", "l"), ("Л", "L"), ("м", "m"), ("М", "M"), ("н", "n"), 
   ("Н", "N"), ("о", "o"), ("О", "O"), ("п", "p"), ("П", "P"), ("р", "r"), ("Р", "R"), 
   ("с", "s"), ("С", "S"), ("т", "t"), ("Т", "T"), ("у", "u"), ("У", "U"), ("ф", "f"), 
   ("Ф", "F"), ("х", "h"), ("Х", "H"), ("ц", "ts"), ("Ц", "Ts"), ("ч", "ç"), ("Ч", "Ç"), 
   ("ш", "ş"), ("Ш", "Ş"), ("э", "e"), ("Э", "E"), ("ъ", ""), ("ь", "")]

/-- `TRANSLITERATION_TABLES["crh_Latn_to_Cyrl"]` (transliterator.py). -/
def crhLatnToCyrlTable : List (String × String) :=
  [("ts", "ц"), ("Ts", "Ц"), ("TS", "Ц"), ("ğ", "гъ"), ("Ğ", "Гъ"), ("q", "къ"), ("Q", "Къ"), 
   ("ñ", "нъ"), ("Ñ", "Нъ"), ("c", "дж"), ("C", "Дж"), ("ç", "ч"), ("Ç", "Ч"), ("ş", "ш"), 
   ("Ş", "Ш"), ("İ", "И"), ("i", "и"), ("a", "а"), ("A", "А"), ("b", "б"), ("B", "Б"), 
   ("d", "д"), ("D", "Д"), ("e", "е"), ("E", "Е"), ("f", "ф"), ("F", "Ф"), ("g", "г"), 
   ("G", "Г"), ("h", "х"), ("H", "Х"), ("j", "ж"), ("J", "Ж"), ("k", "к"), ("K", "К"), 
   ("l", "л"), ("L", "Л"), ("m", "м"), ("M", "М"), ("n", "н"), ("N", "Н"), ("o", "о"), 
   ("O", "О"), ("p", "п"), ("P", "П"), ("r", "р"), ("R", "Р"), ("s", "с"), ("S", "С"), 
   ("t", "т"), ("T", "Т"), ("u", "у"), ("U", "У"), ("v", "в"), ("V", "В"), ("y", "й"), 
   ("Y", "Й"), ("z", "з"), ("Z", "З")]

/-- `TRANSLITERATION_TABLES["uzb_Latn_to_Cyrl"]` (transliterator.py). -/
def uzbLatnToCyrlTable : List (String × String) :=
  [("sh", "ш"), ("Sh", "Ш"), ("SH", "Ш"), ("ch", "ч"), ("Ch", "Ч"), ("CH", "Ч"), ("ng", "нг"), 
   ("Ng", "Нг"), ("NG", "НГ"), ("g\x27", "ғ"), ("G\x27", "Ғ"), ("o\x27", "ў"), ("O\x27", "Ў"), 
   ("yo", "ё"), ("Yo", "Ё"), ("YO", "Ё"), ("yu", "ю"), ("Yu", "Ю"), ("YU", "Ю"), ("ya", "я"), 
   ("Ya", "Я"), ("YA", "Я"), ("ts", "ц"), ("Ts", "Ц"), ("TS", "Ц"), ("\x27", "ъ"), ("a", "а"), 
   ("A", "А"), ("b", "б"), ("B", "Б"), ("d", "д"), ("D", "Д"), ("e", "е"), ("E", "Е"), 
   ("f", "ф"), ("F", "Ф"), ("g", "г"), ("G", "Г"), ("h", "ҳ"), ("H", "Ҳ"), ("i", "и"), 
   ("I", "И"), ("j", "ж"), ("J", "Ж"), ("k", "к"), ("K", "К"), ("l", "л"), ("L", "Л"), 
   ("m", "м"), ("M", "М"), ("n", "н"), ("N", "Н"), ("o", "о"), ("O", "О"), ("p", "п"), 
   ("P", "П"), ("q", "қ"), ("Q", "Қ"), ("r", "р"), ("R", "Р"), ("s", "с"), ("S", "С"), 
   ("t", "т"), ("T", "Т"), ("u", "у"), ("U", "У"), ("v", "в"), ("V", "В"), ("x", "х"), 
   ("X", "Х"), ("y", "й"), ("Y", "Й"), ("z", "з"), ("Z", "З")]

/-- `TRANSLITERATION_TABLES["uig_Latn_to_Arab"]` (transliterator.py). -/
def uigLatnToArabTable : List (String × String) :=
  [("ch", "چ"), ("Ch", "چ"), ("CH", "چ"), ("sh", "ش"), ("Sh", "ش"), ("SH", "ش"), ("zh", "ژ"), 
   ("Zh", "ژ"), ("ZH", "ژ"), ("gh", "غ"), ("Gh", "غ"), ("GH", "غ"), ("ng", "ڭ"), ("Ng", "ڭ"), 
   ("NG", "ڭ"), ("a", "ا"), ("e", "ە"), ("b", "ب"), ("p", "پ"), ("t", "ت"), ("j", "ج"), 
   ("x", "خ"), ("d", "د"), ("r", "ر"), ("z", "ز"), ("s", "س"), ("f", "ف"), ("q", "ق"), 
   ("k", "ك"), ("g", "گ"), ("l", "ل"), ("m", "م"), ("n", "ن"), ("h", "ھ"), ("o", "و"), 
   ("u", "ۇ"), ("ö", "ۆ"), ("ü", "ۈ"), ("w", "ۋ"), ("é", "ې"), ("i", "ى"), ("y", "ي"), 
   ("A", "ا"), ("E", "ە"), ("B", "ب"), ("P", "پ"), ("T", "ت"), ("J", "ج"), ("X", "خ"), 
   ("D", "د"), ("R", "ر"), ("Z", "ز"), ("S", "س"), ("F", "ف"), ("Q", "ق"), ("K", "ك"), 
   ("G", "گ"), ("L", "ل"), ("M", "م"), ("N", "ن"), ("H", "ھ"), ("O", "و"), ("U", "ۇ"), 
   ("Ö", "ۆ"), ("Ü", "ۈ"), ("W", "ۋ"), ("É", "ې"), ("I", "ى"), ("Y", "ي")]

/-- `TRANSLITERATION_TABLES["aze_Cyrl_to_Latn"]` (transliterator.py). -/
def azeCyrlToLatnTable : List (String × String) :=
  [("щ", "şç"), ("Щ", "Şç"), ("ә", "ə"), ("Ә", "Ə"), ("ғ", "ğ"), ("Ғ", "Ğ"), ("ө", "ö"), 
   ("Ө", "Ö"), ("ү", "ü"), ("Ү", "Ü"), ("ҹ", "c"), ("Ҹ", "C"), ("ҝ", "g"), ("Ҝ", "G"), 
   ("һ", "h"), ("Һ", "H"), ("а", "a"), ("А", "A"), ("б", "b"), ("Б", "B"), ("в", "v"), 
   ("В", "V"), ("г", "q"), ("Г", "Q"), ("д", "d"), ("Д", "D"), ("е", "e"), ("Е", "E"), 
   ("ё", "yo"), ("Ё", "Yo"), ("ж", "j"), ("Ж", "J"), ("з", "z"), ("З", "Z"), ("и", "i"), 
   ("И", "İ"), ("й", "y"), ("Й", "Y"), ("к", "k"), ("К", "K"), ("л", "l"), ("Л", "L"), 
   ("м", "m"), ("М", "M"), ("н", "n"), ("Н", "N"), ("о", "o"), ("О", "O"), ("п", "p"), 
   ("П", "P"), ("р", "r"), ("Р", "R"), ("с", "s"), ("С", "S"), ("т", "t"), ("Т", "T"), 
   ("у", "u"), ("У", "U"), ("ф", "f"), ("Ф", "F"), ("х", "x"), ("Х", "X"), ("ц", "ts"), 
   ("Ц", "Ts"), ("ч", "ç"), ("Ч", "Ç"), ("ш", "ş"), ("Ш", "Ş"), ("ы", "ı"), ("Ы", "I"), 
   ("э", "e"), ("Э", "E"), ("ю", "yu"), ("Ю", "Yu"), ("я", "ya"), ("Я", "Ya"), ("ъ", ""), 
   ("ь", "")]

/-- `TRANSLITERATION_TABLES["aze_Latn_to_Cyrl"]` (transliterator.py). -/
def azeLatnToCyrlTable : List (String × String) :=
  [("şç", "щ"), ("Şç", "Щ"), ("yo", "ё"), ("Yo", "Ё"), ("YO", "Ё"), ("yu", "ю"), ("Yu", "Ю"), 
   ("YU", "Ю"), ("ya", "я"), ("Ya", "Я"), ("YA", "Я"), ("ts", "ц"), ("Ts", "Ц"), ("TS", "Ц"), 
   ("ə", "ә"), ("Ə", "Ә"), ("ğ", "ғ"), ("Ğ", "Ғ"), ("ö", "ө"), ("Ö", "Ө"), ("ü", "ү"), 
   ("Ü", "Ү"), ("ç", "ч"), ("Ç", "Ч"), ("ş", "ш"), ("Ş", "Ш"), ("İ", "И"), ("ı", "ы"), 
   ("a", "а"), ("A", "А"), ("b", "б"), ("B", "Б"), ("c", "ҹ"), ("C", "Ҹ"), ("d", "д"), 
   ("D", "Д"), ("e", "е"), ("E", "Е"), ("f", "ф"), ("F", "Ф"), ("g", "ҝ"), ("G", "Ҝ"), 
   ("h", "һ"), ("H", "Һ"), ("i", "и"), ("I", "Ы"), ("j", "ж"), ("J", "Ж"), ("k", "к"), 
   ("K", "К"), ("l", "л"), ("L", "Л"), ("m", "м"), ("M", "М"), ("n", "н"), ("N", "Н"), 
   ("o", "о"), ("O", "О"), ("p", "п"), ("P", "П"), ("q", "г"), ("Q", "Г"), ("r", "р"), 
   ("R", "Р"), ("s", "с"), ("S", "С"), ("t", "т"), ("T", "Т"), ("u", "у"), ("U", "У"), 
   ("v", "в"), ("V", "В"), ("x", "х"), ("X", "Х"), ("y", "й"), ("Y", "Й"), ("z", "з"), 
   ("Z", "З")]

/-- `TRANSLITERATION_TABLES["tat_Cyrl_to_Latn"]` (transliterator.py). -/
def tatCyrlToLatnTable : List (String × String) :=
  [("щ", "şç"), ("Щ", "Şç"), ("ә", "ä"), ("Ә", "Ä"), ("ө", "ö"), ("Ө", "Ö"), ("ү", "ü"), 
   ("Ү", "Ü"), ("җ", "c"), ("Җ", "C"), ("ң", "ñ"), ("Ң", "Ñ"), ("һ", "h"), ("Һ", "H"), 
   ("а", "a"), ("А", "A"), ("б", "b"), ("Б", "B"), ("в", "w"), ("В", "W"), ("г", "g"), 
   ("Г", "G"), ("д", "d"), ("Д", "D"), ("е", "e"), ("Е", "E"), ("ё", "yo"), ("Ё", "Yo"), 
   ("ж", "j"), ("Ж", "J"), ("з", "z"), ("З", "Z"), ("и", "i"), ("И", "İ"), ("й", "y"), 
   ("Й", "Y"), ("к", "k"), ("К", "K"), ("л", "l"), ("Л", "L"), ("м", "m"), ("М", "M"), 
   ("н", "n"), ("Н", "N"), ("о", "o"), ("О", "O"), ("п", "p"), ("П", "P"), ("р", "r"), 
   ("Р", "R"), ("с", "s"), ("С", "S"), ("т", "t"), ("Т", "T"), ("у", "u"), ("У", "U"), 
   ("ф", "f"), ("Ф", "F"), ("х", "x"), ("Х", "X"), ("ц", "ts"), ("Ц", "Ts"), ("ч", "ç"), 
   ("Ч", "Ç"), ("ш", "ş"), ("Ш", "Ş"), ("ы", "ı"), ("Ы", "I"), ("э", "e"), ("Э", "E"), 
   ("ю", "yu"), ("Ю", "Yu"), ("я", "ya"), ("Я", "Ya"), ("ъ", ""), ("ь", "")]

/-- `TRANSLITERATION_TABLES["tat_Latn_to_Cyrl"]` (transliterator.py). -/
def tatLatnToCyrlTable : List (String × String) :=
  [("şç", "щ"), ("Şç", "Щ"), ("yo", "ё"), ("Yo", "Ё"), ("YO", "Ё"), ("yu", "ю"), ("Yu", "Ю"), 
   ("YU", "Ю"), ("ya", "я"), ("Ya", "Я"), ("YA", "Я"), ("ts", "ц"), ("Ts", "Ц"), ("TS", "Ц"), 
   ("ä", "ә"), ("Ä", "Ә"), ("ö", "ө"), ("Ö", "Ө"), ("ü", "ү"), ("Ü", "Ү"), ("ñ", "ң"), 
   ("Ñ", "Ң"), ("ç", "ч"), ("Ç", "Ч"), ("ş", "ш"), ("Ş", "Ш"), ("İ", "И"), ("ı", "ы"), 
   ("a", "а"), ("A", "А"), ("b", "б"), ("B", "Б"), ("c", "җ"), ("C", "Җ"), ("d", "д"), 
   ("D", "Д"), ("e", "е"), ("E", "Е"), ("f", "ф"), ("F", "Ф"), ("g", "г"), ("G", "Г"), 
   ("h", "һ"), ("H", "Һ"), ("i", "и"), ("I", "Ы"), ("j", "ж"), ("J", "Ж"), ("k", "к"), 
   ("K", "К"), ("l", "л"), ("L", "Л"), ("m", "м"), ("M", "М"), ("n", "н"), ("N", "Н"), 
   ("o", "о"), ("O", "О"), ("p", "п"), ("P", "П"), ("r", "р"), ("R", "Р"), ("s", "с"), 
   ("S", "С"), ("t", "т"), ("T", "Т"), ("u", "у"), ("U", "У"), ("w", "в"), ("W", "В"), 
   ("x", "х"), ("X", "Х"), ("y", "й"), ("Y", "Й"), ("z", "з"), ("Z", "З")]

/-- `TRANSLITERATION_TABLES["kaa_Cyrl_to_Latn"]` (transliterator.py). -/
def kaaCyrlToLatnTable : List (String × String) :=
  [("щ", "shch"), ("Щ", "Shch"), ("ә", "á"), ("Ә", "Á"), ("ғ", "ǵ"), ("Ғ", "Ǵ"), ("қ", "q"), 
   ("Қ", "Q"), ("ң", "ń"), ("Ң", "Ń"), ("ө", "ó"), ("Ө", "Ó"), ("ү", "ú"), ("Ү", "Ú"), 
   ("ў", "w"), ("Ў", "W"), ("ҳ", "h"), ("Ҳ", "H"), ("а", "a"), ("А", "A"), ("б", "b"), 
   ("Б", "B"), ("в", "v"), ("В", "V"), ("г", "g"), ("Г", "G"), ("д", "d"), ("Д", "D"), 
   ("е", "e"), ("Е", "E"), ("ё", "yo"), ("Ё", "Yo"), ("ж", "j"), ("Ж", "J"), ("з", "z"), 
   ("З", "Z"), ("и", "i"), ("И", "I"), ("й", "y"), ("Й", "Y"), ("к", "k"), ("К", "K"), 
   ("л", "l"), ("Л", "L"), ("м", "m"), ("М", "M"), ("н", "n"), ("Н", "N"), ("о", "o"), 
   ("О", "O"), ("п", "p"), ("П", "P"), ("р", "r"), ("Р", "R"), ("с", "s"), ("С", "S"), 
   ("т", "t"), ("Т", "T"), ("у", "u"), ("У", "U"), ("ф", "f"), ("Ф", "F"), ("х", "x"), 
   ("Х", "X"), ("ц", "ts"), ("Ц", "Ts"), ("ч", "ch"), ("Ч", "Ch"), ("ш", "sh"), ("Ш", "Sh"), 
   ("ы", "í"), ("Ы", "Í"), ("э", "e"), ("Э", "E"), ("ю", "yu"), ("Ю", "Yu"), ("я", "ya"), 
   ("Я", "Ya"), ("ъ", ""), ("ь", "")]

/-- `TRANSLITERATION_TABLES["kaa_Latn_to_Cyrl"]` (transliterator.py). -/
def kaaLatnToCyrlTable : List (String × String) :=
  [("shch", "щ"), ("Shch", "Щ"), ("sh", "ш"), ("Sh", "Ш"), ("SH", "Ш"), ("ch", "ч"), 
   ("Ch", "Ч"), ("CH", "Ч"), ("yo", "ё"), ("Yo", "Ё"), ("YO", "Ё"), ("yu", "ю"), ("Yu", "Ю"), 
   ("YU", "Ю"), ("ya", "я"), ("Ya", "Я"), ("YA", "Я"), ("ts", "ц"), ("Ts", "Ц"), ("TS", "Ц"), 
   ("á", "ә"), ("Á", "Ә"), ("ǵ", "ғ"), ("Ǵ", "Ғ"), ("ń", "ң"), ("Ń", "Ң"), ("ó", "ө"), 
   ("Ó", "Ө"), ("ú", "ү"), ("Ú", "Ү"), ("í", "ы"), ("Í", "Ы"), ("a", "а"), ("A", "А"), 
   ("b", "б"), ("B", "Б"), ("d", "д"), ("D", "Д"), ("e", "е"), ("E", "Е"), ("f", "ф"), 
   ("F", "Ф"), ("g", "г"), ("G", "Г"), ("h", "ҳ"), ("H", "Ҳ"), ("i", "и"), ("I", "И"), 
   ("j", "ж"), ("J", "Ж"), ("k", "к"), ("K", "К"), ("l", "л"), ("L", "Л"), ("m", "м"), 
   ("M", "М"), ("n", "н"), ("N", "Н"), ("o", "о"), ("O", "О"), ("p", "п"), ("P", "П"), 
   ("q", "қ"), ("Q", "Қ"), ("r", "р"), ("R", "Р"), ("s", "с"), ("S", "С"), ("t", "т"), 
   ("T", "Т"), ("u", "у"), ("U", "У"), ("v", "в"), ("V", "В"), ("w", "ў"), ("W", "Ў"), 
   ("x", "х"), ("X", "Х"), ("y", "й"), ("Y", "Й"), ("z", "з"), ("Z", "З")]

/-- `TRANSLITERATION_TABLES["ota_Latn_to_Arab"]` (transliterator.py). -/
def otaLatnToArabTable : List (String × String) :=
  [("ch", "چ"), ("Ch", "چ"), ("CH", "چ"), ("sh", "ش"), ("Sh", "ش"), ("SH", "ش"), ("a", "ا"), 
   ("A", "ا"), ("b", "ب"), ("B", "ب"), ("c", "ج"), ("C", "ج"), ("ç", "چ"), ("Ç", "چ"), 
   ("d", "د"), ("D", "د"), ("e", "ه"), ("E", "ه"), ("f", "ف"), ("F", "ف"), ("g", "گ"), 
   ("G", "گ"), ("ğ", "غ"), ("Ğ", "غ"), ("h", "ح"), ("H", "ح"), ("ı", "ی"), ("i", "ی"), 
   ("I", "ی"), ("İ", "ی"), ("j", "ژ"), ("J", "ژ"), ("k", "ك"), ("K", "ك"), ("l", "ل"), 
   ("L", "ل"), ("m", "م"), ("M", "م"), ("n", "ن"), ("N", "ن"), ("o", "و"), ("O", "و"), 
   ("ö", "و"), ("Ö", "و"), ("p", "پ"), ("P", "پ"), ("r", "ر"), ("R", "ر"), ("s", "س"), 
   ("S", "س"), ("ş", "ش"), ("Ş", "ش"), ("t", "ت"), ("T", "ت"), ("u", "و"), ("U", "و"), 
   ("ü", "و"), ("Ü", "و"), ("v", "و"), ("V", "و"), ("y", "ی"), ("Y", "ی"), ("z", "ز"), 
   ("Z", "ز")]

/-- `TRANSLITERATION_TABLES["otk_Orkh_to_Latn"]` (transliterator.py). -/
def otkOrkhToLatnTable : List (String × String) :=
  [(String.singleton (Char.ofNat 0x10C00), "a"), (String.singleton (Char.ofNat 0x10C01), "a"), 
   (String.singleton (Char.ofNat 0x10C02), "ä"), (String.singleton (Char.ofNat 0x10C03), "ı"), 
   (String.singleton (Char.ofNat 0x10C04), "ı"), (String.singleton (Char.ofNat 0x10C05), "e"), 
   (String.singleton (Char.ofNat 0x10C06), "o"), (String.singleton (Char.ofNat 0x10C07), "ö"), 
   (String.singleton (Char.ofNat 0x10C08), "ö"), (String.singleton (Char.ofNat 0x10C09), "b"), 
   (String.singleton (Char.ofNat 0x10C0A), "b"), (String.singleton (Char.ofNat 0x10C0B), "b"), 
   (String.singleton (Char.ofNat 0x10C0C), "b"), (String.singleton (Char.ofNat 0x10C0D), "g"), 
   (String.singleton (Char.ofNat 0x10C0E), "g"), (String.singleton (Char.ofNat 0x10C0F), "g"), 
   (String.singleton (Char.ofNat 0x10C10), "g"), (String.singleton (Char.ofNat 0x10C11), "d"), 
   (String.singleton (Char.ofNat 0x10C12), "d"), (String.singleton (Char.ofNat 0x10C13), "d"), 
   (String.singleton (Char.ofNat 0x10C14), "z"), (String.singleton (Char.ofNat 0x10C15), "y"), 
   (String.singleton (Char.ofNat 0x10C16), "y"), (String.singleton (Char.ofNat 0x10C17), "y"), 
   (String.singleton (Char.ofNat 0x10C18), "y"), (String.singleton (Char.ofNat 0x10C19), "k"), 
   (String.singleton (Char.ofNat 0x10C1A), "k"), (String.singleton (Char.ofNat 0x10C1B), "q"), 
   (String.singleton (Char.ofNat 0x10C1C), "q"), (String.singleton (Char.ofNat 0x10C1D), "q"), 
   (String.singleton (Char.ofNat 0x10C1E), "q"), (String.singleton (Char.ofNat 0x10C1F), "q"), 
   (String.singleton (Char.ofNat 0x10C20), "q"), (String.singleton (Char.ofNat 0x10C21), "l"), 
   (String.singleton (Char.ofNat 0x10C22), "l"), (String.singleton (Char.ofNat 0x10C23), "l"), 
   (String.singleton (Char.ofNat 0x10C24), "l"), (String.singleton (Char.ofNat 0x10C25), "m"), 
   (String.singleton (Char.ofNat 0x10C26), "n"), (String.singleton (Char.ofNat 0x10C27), "n"), 
   (String.singleton (Char.ofNat 0x10C28), "n"), (String.singleton (Char.ofNat 0x10C29), "ŋ"), 
   (String.singleton (Char.ofNat 0x10C2A), "ŋ"), (String.singleton (Char.ofNat 0x10C2B), "p"), 
   (String.singleton (Char.ofNat 0x10C2C), "p"), (String.singleton (Char.ofNat 0x10C2D), "r"), 
   (String.singleton (Char.ofNat 0x10C2E), "r"), (String.singleton (Char.ofNat 0x10C2F), "r"), 
   (String.singleton (Char.ofNat 0x10C30), "s"), (String.singleton (Char.ofNat 0x10C31), "s"), 
   (String.singleton (Char.ofNat 0x10C32), "t"), (String.singleton (Char.ofNat 0x10C33), "t"), 
   (String.singleton (Char.ofNat 0x10C34), "t"), (String.singleton (Char.ofNat 0x10C35), "t"), 
   (String.singleton (Char.ofNat 0x10C36), "lt"), 
   (String.singleton (Char.ofNat 0x10C37), "lt"), 
   (String.singleton (Char.ofNat 0x10C38), "sh"), 
   (String.singleton (Char.ofNat 0x10C39), "z"), (String.singleton (Char.ofNat 0x10C3A), "z"), 
   (String.singleton (Char.ofNat 0x10C3B), "nt"), 
   (String.singleton (Char.ofNat 0x10C3C), "nch"), 
   (String.singleton (Char.ofNat 0x10C3D), "ch"), 
   (String.singleton (Char.ofNat 0x10C3E), "ch"), 
   (String.singleton (Char.ofNat 0x10C3F), "ch"), 
   (String.singleton (Char.ofNat 0x10C40), "bash"), 
   (String.singleton (Char.ofNat 0x10C48), ":")]

/-- `TRANSLITERATION_TABLES` (transliterator.py:344-765), keyed by
`f"{lang}_{source}_to_{target}"` in dict insertion order. -/
def TRANSLITERATION_TABLES : List (String × List (String × String)) :=
  [("kaz_Cyrl_to_Latn", kazCyrlToLatnTable),
   ("kaz_Latn_to_Cyrl", kazLatnToCyrlTable),
   ("uzb_Cyrl_to_Latn", uzbCyrlToLatnTable),
   ("uig_Arab_to_Latn", uigArabToLatnTable),
   ("tuk_Cyrl_to_Latn", tukCyrlToLatnTable),
   ("tuk_Latn_to_Cyrl", tukLatnToCyrlTable),
   ("crh_Cyrl_to_Latn", crhCyrlToLatnTable),
   ("crh_Latn_to_Cyrl", crhLatnToCyrlTable),
   ("uzb_Latn_to_Cyrl", uzbLatnToCyrlTable),
   ("uig_Latn_to_Arab", uigLatnToArabTable),
   ("aze_Cyrl_to_Latn", azeCyrlToLatnTable),
   ("aze_Latn_to_Cyrl", azeLatnToCyrlTable),
   ("tat_Cyrl_to_Latn", tatCyrlToLatnTable),
   ("tat_Latn_to_Cyrl", tatLatnToCyrlTable),
   ("kaa_Cyrl_to_Latn", kaaCyrlToLatnTable),
   ("kaa_Latn_to_Cyrl", kaaLatnToCyrlTable),
   ("ota_Latn_to_Arab", otaLatnToArabTable),
   ("otk_Orkh_to_Latn", otkOrkhToLatnTable)]

/-- `Transliterator._normalize_uzb_apostrophes` (transliterator.py:264-274). -/
def normalizeUzbApostrophes (text : String) : String :=
  String.mk (text.data.map (fun c =>
    if c ∈ ['‘', '’', 'ʻ', 'ʼ', 'ʹ', backquoteChar] then '\x27' else c))

/-- `f"{lang}_{source.value}_to_{target.value}"` (transliterator.py:329). -/
def tableKey (lang : String) (source target : Script) : String :=
  lang ++ "_" ++ source.value ++ "_to_" ++ target.value

/-- `Transliterator._load_mapping` (transliterator.py:324-337): the forward
table for the key, `none` modelling the `ValueError` raised when no table is
registered. (The derived reverse dict is never consulted by `transliterate`
and is not carried.) -/
def loadMapping (lang : String) (source target : Script) :
    Option (List (String × String)) :=
  assocLookup TRANSLITERATION_TABLES (tableKey lang source target)

/-- A constructed `Transliterator` (transliterator.py:26-30). -/
structure Transliterator where
  lang : String
  source : Script
  target : Script
  forward : List (String × String)

/-- `Transliterator.__init__` (transliterator.py:26-30): `none` models the
constructor failing with `ValueError` when `_load_mapping` finds no table. -/
def mkTransliterator (lang : String) (source target : Script) :
    Option Transliterator :=
  (loadMapping lang source target).map (fun tbl => ⟨lang, source, target, tbl⟩)

/-- `Transliterator.transliterate` (transliterator.py:32-100): dispatch to the
language-specific contextual converters, else the generic greedy matcher (for
Uzbek Latin→Cyrillic after apostrophe normalization). -/
def Transliterator.transliterate (t : Transliterator) (text : String) : String :=
  if t.lang = "tuk" ∧ t.source = Script.Cyrl ∧ t.target = Script.Latn then
    tukCyrlToLatnAux t.forward none text.data
  else if t.lang = "uzb" ∧ t.source = Script.Cyrl ∧ t.target = Script.Latn then
    uzbCyrlToLatnAux t.forward none text.data
  else if t.lang = "tuk" ∧ t.source = Script.Latn ∧ t.target = Script.Cyrl then
    tukLatnToCyrlAux t.forward text.data
  else if t.lang = "uig" ∧ t.source = Script.Latn ∧ t.target = Script.Arab then
    uigLatnToArabAux t.forward none text.data
  else if t.lang = "uzb" ∧ t.source = Script.Latn ∧ t.target = Script.Cyrl then
    genericTranslit t.forward (normalizeUzbApostrophes text).data
  else
    genericTranslit t.forward text.data

/-- Whether `lang` registers tables in both directions between `a` and `b` and
transliterating `s` from `a` to `b` and back reproduces `s`. -/
def roundTrips (lang : String) (a b : Script) (s : String) : Bool :=
  match mkTransliterator lang a b, mkTransliterator lang b a with
  | some t1, some t2 => decide (t2.transliterate (t1.transliterate s) = s)
  | _, _ => false

/-! ## General lemmas -/

theorem keyLt_weight_le {a b : ℚ × Int × Nat × Nat} (h : keyLt a b = true) :
    a.1 ≤ b.1 := by
  unfold keyLt at h
  by_cases h1 : a.1 < b.1
  · exact le_of_lt h1
  · rw [if_neg h1] at h
    by_cases h2 : b.1 < a.1
    · rw [if_pos h2] at h; exact absurd h (by simp)
    · exact le_of_not_lt h2

theorem keyLt_false_weight_le {a b : ℚ × Int × Nat × Nat}
    (h : keyLt a b = false) : b.1 ≤ a.1 := by
  unfold keyLt at h
  by_cases h1 : a.1 < b.1
  · rw [if_pos h1] at h; exact absurd h (by simp)
  · exact le_of_not_lt h1

theorem pickFold_mem (st : MorphState) (fl nq : Bool) (surf : Option String) :
    ∀ (rs : List Reading) (b : Reading),
      (rs.foldl (fun best cand =>
        if keyLt (sortKey st fl nq surf cand) (sortKey st fl nq surf best)
        then cand else best) b) ∈ b :: rs := by
  intro rs
  induction rs with
  | nil => intro b; simp
  | cons c rest ih =>
    intro b
    simp only [List.foldl_cons]
    by_cases hc : keyLt (sortKey st fl nq surf c) (sortKey st fl nq surf b) = true
    · rw [if_pos hc]
      have := ih c
      rcases List.mem_cons.mp this with h | h
      · rw [h]; simp
      · simp [h]
    · rw [if_neg hc]
      have := ih b
      rcases List.mem_cons.mp this with h | h
      · rw [h]; simp
      · simp [h]

theorem pickFold_weight_le (st : MorphState) (fl nq : Bool) (surf : Option String) :
    ∀ (rs : List Reading) (b : Reading),
      (rs.foldl (fun best cand =>
        if keyLt (sortKey st fl nq surf cand) (sortKey st fl nq surf best)
        then cand else best) b).weight ≤ b.weight
      ∧ ∀ r ∈ rs,
        (rs.foldl (fun best cand =>
          if keyLt (sortKey st fl nq surf cand) (sortKey st fl nq surf best)
          then cand else best) b).weight ≤ r.weight := by
  intro rs
  induction rs with
  | nil => intro b; simp
  | cons c rest ih =>
    intro b
    simp only [List.foldl_cons]
    by_cases hc : keyLt (sortKey st fl nq surf c) (sortKey st fl nq surf b) = true
    · rw [if_pos hc]
      have hcb : c.weight ≤ b.weight := keyLt_weight_le hc
      obtain ⟨h1, h2⟩ := ih c
      refine ⟨le_trans h1 hcb, ?_⟩
      intro r hr
      rcases List.mem_cons.mp hr with h | h
      · subst h; exact h1
      · exact h2 r h
    · have hc' : keyLt (sortKey st fl nq surf c) (sortKey st fl nq surf b) = false :=
        Bool.eq_false_iff.mpr hc
      rw [if_neg hc]
      have hbc : b.weight ≤ c.weight := keyLt_false_weight_le hc'
      obtain ⟨h1, h2⟩ := ih b
      refine ⟨h1, ?_⟩
      intro r hr
      rcases List.mem_cons.mp hr with h | h
      · subst h; exact le_trans h1 hbc
      · exact h2 r h

theorem pairwise_weight_ne_eq {readings : List Reading}
    (hdist : readings.Pairwise (fun a b => a.weight ≠ b.weight)) :
    ∀ a ∈ readings, ∀ b ∈ readings, a.weight = b.weight → a = b := by
  induction readings with
  | nil => intro a ha; simp at ha
  | cons x xs ih =>
    intro a ha b hb hab
    have hx : ∀ y ∈ xs, x.weight ≠ y.weight := (List.pairwise_cons.mp hdist).1
    have hxs := (List.pairwise_cons.mp hdist).2
    rcases List.mem_cons.mp ha with rfl | ha' <;> rcases List.mem_cons.mp hb with rfl | hb'
    · rfl
    · exact absurd hab (hx b hb')
    · exact absurd hab.symm (hx a ha')
    · exact ih hxs a ha' b hb' hab

theorem disambiguate_mem (st : MorphState) (readings : List Reading)
    (ws : Option (List String)) (idx : Option Nat) (surf : Option String)
    (hne : readings ≠ []) :
    disambiguate st readings ws idx surf ∈ readings := by
  match readings with
  | [] => exact absurd rfl hne
  | [r] => simp [disambiguate]
  | r :: r2 :: rs =>
    simp only [disambiguate]
    exact pickFold_mem st _ _ surf (r2 :: rs) r

theorem disambiguate_weight_min (st : MorphState) (readings : List Reading)
    (ws : Option (List String)) (idx : Option Nat) (surf : Option String) :
    ∀ r ∈ readings, (disambiguate st readings ws idx surf).weight ≤ r.weight := by
  match readings with
  | [] => intro r hr; simp at hr
  | [r] => intro x hx; simp at hx; subst hx; simp [disambiguate]
  | r :: r2 :: rs =>
    intro x hx
    simp only [disambiguate]
    obtain ⟨h1, h2⟩ := pickFold_weight_le st
      (isFinalLexicalPosition ws idx) (nextIsQuestionParticle ws idx) surf (r2 :: rs) r
    rcases List.mem_cons.mp hx with h | h
    · subst h; exact h1
    · exact h2 x h

theorem addVariant_cases (acc : List String) (v : String) :
    addVariant acc v = acc ∨ (addVariant acc v = acc ++ [v] ∧ v ≠ "" ∧ v ∉ acc) := by
  unfold addVariant
  by_cases h : (v ≠ "" && !acc.contains v) = true
  · right
    have hif : (if (v ≠ "" && !acc.contains v) = true then acc ++ [v] else acc)
        = acc ++ [v] := if_pos h
    simp only [Bool.and_eq_true, Bool.not_eq_true', ne_eq, decide_eq_true_eq] at h
    obtain ⟨h1, h2⟩ := h
    exact ⟨hif, h1, by simpa using h2⟩
  · left
    rw [if_neg h]

theorem mem_foldl_addVariant_of_mem_acc {x : String} :
    ∀ (vs : List String) (acc : List String), x ∈ acc →
      x ∈ vs.foldl addVariant acc := by
  intro vs
  induction vs with
  | nil => intro acc h; simpa using h
  | cons v rest ih =>
    intro acc h
    simp only [List.foldl_cons]
    apply ih
    rcases addVariant_cases acc v with h2 | ⟨h2, -, -⟩ <;> rw [h2]
    · exact h
    · exact List.mem_append_left _ h

theorem foldl_addVariant_prefix :
    ∀ (vs : List String) (acc : List String),
      ∃ t, vs.foldl addVariant acc = acc ++ t := by
  intro vs
  induction vs with
  | nil => intro acc; exact ⟨[], by simp⟩
  | cons v rest ih =>
    intro acc
    simp only [List.foldl_cons]
    rcases addVariant_cases acc v with h2 | ⟨h2, -, -⟩ <;> rw [h2]
    · exact ih acc
    · obtain ⟨t, ht⟩ := ih (acc ++ [v])
      exact ⟨v :: t, by simpa [List.append_assoc] using ht⟩

theorem foldl_addVariant_sublist :
    ∀ (vs : List String) (acc : List String),
      (vs.foldl addVariant acc).Sublist (acc ++ vs) := by
  intro vs
  induction vs with
  | nil => intro acc; simp
  | cons v rest ih =>
    intro acc
    simp only [List.foldl_cons]
    rcases addVariant_cases acc v with h2 | ⟨h2, -, -⟩ <;> rw [h2]
    · exact (ih acc).trans
        (List.Sublist.append_left (List.sublist_cons_self v rest) acc)
    · have := ih (acc ++ [v])
      rwa [List.append_assoc, List.singleton_append] at this

theorem mem_foldl_addVariant {v : String} :
    ∀ (vs : List String) (acc : List String), v ∈ vs → v ≠ "" →
      v ∈ vs.foldl addVariant acc := by
  intro vs
  induction vs with
  | nil => intro acc h; simp at h
  | cons u rest ih =>
    intro acc h hne
    simp only [List.foldl_cons]
    rcases List.mem_cons.mp h with rfl | h2
    · apply mem_foldl_addVariant_of_mem_acc
      rcases addVariant_cases acc v with h3 | ⟨h3, -, -⟩ <;> rw [h3]
      · unfold addVariant at h3
        by_cases hc : (v ≠ "" && !acc.contains v) = true
        · rw [if_pos hc] at h3
          have : v ∈ acc ++ [v] := List.mem_append_right _ (by simp)
          rwa [h3] at this
        · simp only [Bool.and_eq_true, Bool.not_eq_true', ne_eq,
            not_and, Bool.not_eq_false] at hc
          have := hc (by simpa using hne)
          simpa using this
      · exact List.mem_append_right _ (by simp)
    · exact ih _ h2 hne

theorem foldl_addVariant_ne :
    ∀ (vs : List String) (acc : List String), ∀ x ∈ vs.foldl addVariant acc,
      x ∈ acc ∨ x ≠ "" := by
  intro vs
  induction vs with
  | nil => intro acc x h; exact Or.inl (by simpa using h)
  | cons v rest ih =>
    intro acc x h
    simp only [List.foldl_cons] at h
    rcases addVariant_cases acc v with h2 | ⟨h2, hv, -⟩
    · rw [h2] at h; exact ih acc x h
    · rw [h2] at h
      rcases ih _ x h with h3 | h3
      · rcases List.mem_append.mp h3 with h4 | h4
        · exact Or.inl h4
        · simp only [List.mem_singleton] at h4
          subst h4
          exact Or.inr hv
      · exact Or.inr h3

theorem foldl_addVariant_nodup :
    ∀ (vs : List String) (acc : List String), acc.Nodup →
      (vs.foldl addVariant acc).Nodup := by
  intro vs
  induction vs with
  | nil => intro acc h; simpa using h
  | cons v rest ih =>
    intro acc h
    simp only [List.foldl_cons]
    rcases addVariant_cases acc v with h2 | ⟨h2, -, hnot⟩ <;> rw [h2]
    · exact ih acc h
    · exact ih _ (by simp [List.nodup_append, h, hnot])

section DedupMachinery

variable {α : Type} [DecidableEq α]

theorem dedupFirstF_mem :
    ∀ (fuel : Nat) (l : List α), l.length ≤ fuel →
      ∀ x : α, x ∈ dedupFirstF fuel l ↔ x ∈ l := by
  intro fuel
  induction fuel with
  | zero =>
    intro l hl x
    have : l = [] := List.eq_nil_of_length_eq_zero (Nat.le_zero.mp hl)
    subst this
    simp [dedupFirstF]
  | succ n ih =>
    intro l hl x
    cases l with
    | nil => simp [dedupFirstF]
    | cons y ys =>
      have hlen : (ys.filter (fun z => z ≠ y)).length ≤ n := by
        have := ys.length_filter_le (fun z => z ≠ y)
        simp only [List.length_cons, Nat.succ_le_succ_iff] at hl
        omega
      constructor
      · intro hx
        rcases List.mem_cons.mp
            (show x ∈ y :: dedupFirstF n (ys.filter (fun z => z ≠ y)) from hx)
          with rfl | hx2
        · exact List.mem_cons_self _ _
        · have := (ih _ hlen x).mp hx2
          exact List.mem_cons_of_mem _ (List.mem_filter.mp this).1
      · intro hx
        show x ∈ y :: dedupFirstF n (ys.filter (fun z => z ≠ y))
        rcases List.mem_cons.mp hx with rfl | hx2
        · exact List.mem_cons_self _ _
        · by_cases hxy : x = y
          · subst hxy; exact List.mem_cons_self _ _
          · exact List.mem_cons_of_mem _
              ((ih _ hlen x).mpr (List.mem_filter.mpr ⟨hx2, by simpa using hxy⟩))

theorem dedupFirst_mem (l : List α) (x : α) : x ∈ dedupFirst l ↔ x ∈ l :=
  dedupFirstF_mem l.length l (le_refl _) x

theorem dedupFirst_eq_nil_iff (l : List α) : dedupFirst l = [] ↔ l = [] := by
  cases l with
  | nil => simp [dedupFirst, dedupFirstF]
  | cons y ys => simp [dedupFirst, dedupFirstF]

theorem precedes_cons {x a b : α} {xs : List α} (hbx : b ≠ x)
    (h : ∀ n, b ∈ xs.take n → a ∈ xs.take n) :
    ∀ n, b ∈ (x :: xs).take n → a ∈ (x :: xs).take n := by
  intro n hb
  cases n with
  | zero => simp at hb
  | succ m =>
    simp only [List.take_succ_cons, List.mem_cons] at hb ⊢
    rcases hb with rfl | hb
    · exact absurd rfl hbx
    · exact Or.inr (h m hb)

theorem precedes_of_filter {p : α → Bool} {l : List α} {a b : α}
    (hpb : p b = true)
    (h : ∀ n, b ∈ (l.filter p).take n → a ∈ (l.filter p).take n) :
    ∀ n, b ∈ l.take n → a ∈ l.take n := by
  intro n hb
  have hb2 : b ∈ (l.take n).filter p := List.mem_filter.mpr ⟨hb, hpb⟩
  have hsplit : l.filter p = (l.take n).filter p ++ (l.drop n).filter p := by
    rw [← List.filter_append, List.take_append_drop]
  have htake : (l.filter p).take ((l.take n).filter p).length
      = (l.take n).filter p := by
    rw [hsplit, List.take_left]
  have hb3 : b ∈ (l.filter p).take ((l.take n).filter p).length := by
    rw [htake]; exact hb2
  have ha3 := h _ hb3
  rw [htake] at ha3
  exact (List.mem_filter.mp ha3).1

theorem dedupFirstF_precedes :
    ∀ (fuel : Nat) (l : List α), l.length ≤ fuel →
      ∀ (l1 : List α) (a : α) (l2 : List α),
        dedupFirstF fuel l = l1 ++ a :: l2 →
        ∀ b ∈ l2, ∀ n, b ∈ l.take n → a ∈ l.take n := by
  intro fuel
  induction fuel with
  | zero =>
    intro l hl l1 a l2 hd
    have : l = [] := List.eq_nil_of_length_eq_zero (Nat.le_zero.mp hl)
    subst this
    simp [dedupFirstF] at hd
  | succ fn ih =>
    intro l hl l1 a l2 hd b hb
    cases l with
    | nil => simp [dedupFirstF] at hd
    | cons x xs =>
      have hlen : (xs.filter (fun z => z ≠ x)).length ≤ fn := by
        have := xs.length_filter_le (fun z => z ≠ x)
        simp only [List.length_cons, Nat.succ_le_succ_iff] at hl
        omega
      simp only [dedupFirstF] at hd
      cases l1 with
      | nil =>
        simp only [List.nil_append, List.cons.injEq] at hd
        obtain ⟨rfl, hd2⟩ := hd
        have hbmem : b ∈ xs.filter (fun z => z ≠ x) := by
          rw [← dedupFirstF_mem fn _ hlen]
          rw [hd2]; exact hb
        have hbx : b ≠ x := by
          have := (List.mem_filter.mp hbmem).2
          simpa using this
        intro n hbn
        cases n with
        | zero => simp at hbn
        | succ m => simp
      | cons x1 l1' =>
        simp only [List.cons_append, List.cons.injEq] at hd
        obtain ⟨rfl, hd2⟩ := hd
        have hprec := ih _ hlen l1' a l2 hd2 b hb
        have hbmem : b ∈ xs.filter (fun z => z ≠ x) := by
          rw [← dedupFirstF_mem fn _ hlen, hd2]
          exact List.mem_append_right _ (List.mem_cons_of_mem a hb)
        have hbx : b ≠ x := by
          have := (List.mem_filter.mp hbmem).2
          simpa using this
        have hpb : (fun z => decide (z ≠ x)) b = true := by
          simpa using hbx
        exact precedes_cons hbx (precedes_of_filter hpb hprec)

theorem argfold_split (cnt : α → Nat) :
    ∀ (xs : List α) (x : α),
      ∃ l1 l2,
        x :: xs
          = l1 ++ (xs.foldl (fun best s => if cnt best < cnt s then s else best) x)
              :: l2
        ∧ (∀ y ∈ l1,
            cnt y < cnt (xs.foldl (fun best s =>
              if cnt best < cnt s then s else best) x))
        ∧ (∀ y ∈ l2,
            cnt y ≤ cnt (xs.foldl (fun best s =>
              if cnt best < cnt s then s else best) x)) := by
  intro xs
  induction xs with
  | nil =>
    intro x
    exact ⟨[], [], by simp, by simp, by simp⟩
  | cons z rest ih =>
    intro x
    simp only [List.foldl_cons]
    by_cases h : cnt x < cnt z
    · rw [if_pos h]
      obtain ⟨l1, l2, heq, hl1, hl2⟩ := ih z
      refine ⟨x :: l1, l2, by rw [List.cons_append, ← heq], ?_, hl2⟩
      intro y hy
      rcases List.mem_cons.mp hy with rfl | hy2
      · have hz : z ∈ l1
            ++ (rest.foldl (fun best s => if cnt best < cnt s then s else best) z)
              :: l2 := by
          rw [← heq]; exact List.mem_cons_self z rest
        rcases List.mem_append.mp hz with hz1 | hz2
        · exact lt_trans h (hl1 z hz1)
        · rcases List.mem_cons.mp hz2 with hzb | hz3
          · rw [← hzb]; exact h
          · exact lt_of_lt_of_le h (hl2 z hz3)
      · exact hl1 y hy2
    · rw [if_neg h]
      obtain ⟨l1, l2, heq, hl1, hl2⟩ := ih x
      set best := rest.foldl (fun best s => if cnt best < cnt s then s else best) x
        with hbest
      cases l1 with
      | nil =>
        simp only [List.nil_append, List.cons.injEq] at heq
        obtain ⟨hx, hrest⟩ := heq
        refine ⟨[], z :: rest, ?_, by simp, ?_⟩
        · simp only [List.nil_append]
          rw [← hx]
        · intro y hy
          rcases List.mem_cons.mp hy with rfl | hy2
          · rw [← hx]; exact le_of_not_lt h
          · exact hl2 y (hrest ▸ hy2)
      | cons x1 l1' =>
        simp only [List.cons_append, List.cons.injEq] at heq
        obtain ⟨hx1, hrest⟩ := heq
        have hxlt : cnt x < cnt best := by
          rw [hx1]
          exact hl1 x1 (List.mem_cons_self x1 l1')
        refine ⟨x :: z :: l1', l2, ?_, ?_, hl2⟩
        · rw [hrest]; simp
        · intro y hy
          rcases List.mem_cons.mp hy with rfl | hy2
          · exact hxlt
          · rcases List.mem_cons.mp hy2 with rfl | hy3
            · exact lt_of_le_of_lt (le_of_not_lt h) hxlt
            · exact hl1 y (List.mem_cons_of_mem x1 hy3)

end DedupMachinery

theorem finiteTense_subset_verbal : ∀ t ∈ finiteTenseTags, t ∈ verbalTags := by
  decide

theorem finiteTense_subset_mood :
    ∀ t ∈ finiteTenseTags, t ∈ finiteMoodTenseTags := by
  decide

/-- `context_score` of a noun reading carrying no verbal feature tag:
`-2` sentence-finally, `0` otherwise (with an empty lexicon). -/
theorem contextScore_noun (st : MorphState) (hlex : st.lexicon = [])
    (fl nq : Bool) (surf : Option String) (r : Reading)
    (hpos : r.pos = "n") (hnv : ∀ t ∈ r.feats, t ∉ verbalTags) :
    contextScore st fl nq surf r = if fl then -2 else 0 := by
  have hverb : r.feats.any (fun t => t ∈ verbalTags) = false := by
    simp only [List.any_eq_false, decide_eq_true_eq]
    exact hnv
  have hfin : r.feats.any (fun t => t ∈ finiteTenseTags) = false := by
    simp only [List.any_eq_false, decide_eq_true_eq]
    intro t ht hmem
    exact hnv t ht (finiteTense_subset_verbal t hmem)
  cases surf <;> cases fl <;>
    simp [contextScore, hpos, hlex, hverb, hfin]

/-- Bounds on `context_score` of a verb reading carrying a finite-tense tag
(with an empty lexicon): at least `1` sentence-finally; at most `-2`
non-finally with no following question particle. -/
theorem contextScore_verb (st : MorphState) (hlex : st.lexicon = [])
    (surf : Option String) (r : Reading) (hpos : r.pos = "v")
    (hvt : ∃ t ∈ r.feats, t ∈ finiteTenseTags) :
    (∀ nq, 1 ≤ contextScore st true nq surf r
      ∧ contextScore st true nq surf r ≤ 4)
    ∧ contextScore st false false surf r ≤ -2 := by
  have hfin : r.feats.any (fun t => t ∈ finiteTenseTags) = true := by
    simp only [List.any_eq_true, decide_eq_true_eq]
    exact hvt
  have hmood : r.feats.any (fun t => t ∈ finiteMoodTenseTags) = true := by
    simp only [List.any_eq_true, decide_eq_true_eq]
    obtain ⟨t, ht, hmem⟩ := hvt
    exact ⟨t, ht, finiteTense_subset_mood t hmem⟩
  refine ⟨fun nq => ?_, ?_⟩ <;>
    · cases surf <;>
      simp [contextScore, hpos, hlex, hfin, hmood] <;>
      (repeat' split) <;>
      omega

/-- With equal weights, the composite sort key compares by context score:
strictly greater score means strictly smaller key. -/
theorem keyLt_eq_weight_gt (st : MorphState) (fl nq : Bool)
    (surf : Option String) {a b : Reading} (hw : a.weight = b.weight)
    (hs : contextScore st fl nq surf b < contextScore st fl nq surf a) :
    keyLt (sortKey st fl nq surf a) (sortKey st fl nq surf b) = true := by
  simp only [keyLt, sortKey]
  rw [hw]
  rw [if_neg (lt_irrefl _), if_neg (lt_irrefl _)]
  rw [if_pos (by omega :
    -(contextScore st fl nq surf a) < -(contextScore st fl nq surf b))]

/-- With equal weights, strictly smaller context score means the key is not
strictly smaller. -/
theorem keyLt_eq_weight_lt (st : MorphState) (fl nq : Bool)
    (surf : Option String) {a b : Reading} (hw : a.weight = b.weight)
    (hs : contextScore st fl nq surf a < contextScore st fl nq surf b) :
    keyLt (sortKey st fl nq surf a) (sortKey st fl nq surf b) = false := by
  simp only [keyLt, sortKey]
  rw [hw]
  rw [if_neg (lt_irrefl _), if_neg (lt_irrefl _)]
  rw [if_neg (by omega :
    ¬(-(contextScore st fl nq surf a) < -(contextScore st fl nq surf b)))]
  rw [if_pos (by omega :
    -(contextScore st fl nq surf b) < -(contextScore st fl nq surf a))]

/-! ## Claims -/

/-- Claim C9: `_disambiguate` never raises: on an empty reading list it
returns the fixed sentinel reading (empty lemma, pos `"x"`, empty feature
list); on a singleton list it returns the sole reading unchanged; and on every
non-empty list the returned reading is an element of the input list. -/
theorem claim_C9_disambiguate_total (st : MorphState)
    (ws : Option (List String)) (idx : Option Nat) (surf : Option String) :
    ((disambiguate st [] ws idx surf).lemma_ = ""
      ∧ (disambiguate st [] ws idx surf).pos = "x"
      ∧ (disambiguate st [] ws idx surf).feats = [])
    ∧ (∀ r : Reading, disambiguate st [r] ws idx surf = r)
    ∧ (∀ readings : List Reading, readings ≠ [] →
        disambiguate st readings ws idx surf ∈ readings) := by
  refine ⟨⟨rfl, rfl, rfl⟩, fun r => rfl, fun readings hne => ?_⟩
  exact disambiguate_mem st readings ws idx surf hne

/-- Witness for C9 at a concrete two-reading list. -/
theorem claim_C9_witness :
    disambiguate ⟨[], none, none⟩
      [⟨"at", "n", ["nom"], 1, ""⟩, ⟨"at", "v", ["past"], 1, ""⟩]
      none none none
      ∈ [(⟨"at", "n", ["nom"], 1, ""⟩ : Reading), ⟨"at", "v", ["past"], 1, ""⟩] :=
  (claim_C9_disambiguate_total ⟨[], none, none⟩ none none none).2.2
    [⟨"at", "n", ["nom"], 1, ""⟩, ⟨"at", "v", ["past"], 1, ""⟩] (by decide)

/-- Claim C5: when the candidates' FST weights are pairwise distinct, the
disambiguator returns the (unique) candidate of minimal weight, whatever the
sentence context, lexicon, POS priorities and feature counts contribute. -/
theorem claim_C5_weight_primary (st : MorphState)
    (ws : Option (List String)) (idx : Option Nat) (surf : Option String)
    (readings : List Reading) (hne : readings ≠ [])
    (hdist : readings.Pairwise (fun a b => a.weight ≠ b.weight)) :
    disambiguate st readings ws idx surf ∈ readings
    ∧ (∀ r ∈ readings, (disambiguate st readings ws idx surf).weight ≤ r.weight)
    ∧ (∀ r ∈ readings, r ≠ disambiguate st readings ws idx surf →
        (disambiguate st readings ws idx surf).weight < r.weight) := by
  refine ⟨disambiguate_mem st readings ws idx surf hne,
    disambiguate_weight_min st readings ws idx surf, ?_⟩
  intro r hr hne'
  have hle := disambiguate_weight_min st readings ws idx surf r hr
  rcases lt_or_eq_of_le hle with h | h
  · exact h
  · exact absurd (pairwise_weight_ne_eq hdist r hr
      (disambiguate st readings ws idx surf)
      (disambiguate_mem st readings ws idx surf hne) h.symm) hne'

/-- Witness for C5: three readings with distinct weights; the POS priorities
favour the verb, but the minimal-weight adverb reading wins. -/
theorem claim_C5_witness :
    disambiguate ⟨[], none, none⟩
      [⟨"a", "v", [], 3, ""⟩, ⟨"b", "adv", [], 1, ""⟩, ⟨"c", "n", [], 2, ""⟩]
      none none none
      ∈ [(⟨"a", "v", [], 3, ""⟩ : Reading), ⟨"b", "adv", [], 1, ""⟩,
         ⟨"c", "n", [], 2, ""⟩]
    ∧ ∀ r ∈ [(⟨"a", "v", [], 3, ""⟩ : Reading), ⟨"b", "adv", [], 1, ""⟩,
         ⟨"c", "n", [], 2, ""⟩],
        (disambiguate ⟨[], none, none⟩
          [⟨"a", "v", [], 3, ""⟩, ⟨"b", "adv", [], 1, ""⟩, ⟨"c", "n", [], 2, ""⟩]
          none none none).weight ≤ r.weight := by
  have h := claim_C5_weight_primary ⟨[], none, none⟩ none none none
    [⟨"a", "v", [], 3, ""⟩, ⟨"b", "adv", [], 1, ""⟩, ⟨"c", "n", [], 2, ""⟩]
    (by decide) (by decide)
  exact ⟨h.1, h.2.1⟩

/-- Claim C1: a word whose FST lookup yields exactly the readings parsed from
`("w<n><dat><sg>", 0.5)` and `("w<n><nom><sg>", 1.0)`, processed with no
sentence context under the common Turkic tag map, receives lemma `w`, UPOS
`NOUN` and feature string `Case=Dat|Number=Sing`: the lower-weight reading is
chosen, its features are mapped, alphabetically sorted, and survive the NOUN
whitelist cleanup. -/
theorem claim_C1_end_to_end :
    disambiguate ⟨[], some toUdPos, none⟩
      (analyze [("w<n><dat><sg>", mkRat 1 2), ("w<n><nom><sg>", 1)])
      none none (some "w")
      = ⟨"w", "n", ["dat", "sg"], mkRat 1 2, "w<n><dat><sg>"⟩
    ∧ morphAssign (analyze [("w<n><dat><sg>", mkRat 1 2), ("w<n><nom><sg>", 1)])
        none none (some "w")
      = ("w", "NOUN", "Case=Dat|Number=Sing") := by
  constructor
  · decide
  · decide

/-- Claim C10: `_analyze` discards any FST output whose cleaned analysis
string is empty or starts with `<` (empty lemma prefix), besides those with
zero extracted tags; consequently every returned reading has a non-empty
lemma and a non-empty POS tag. -/
theorem claim_C10_analyze_nonempty :
    (∀ (s : String) (w : ℚ),
      (cleanAnalysis s = [] ∨ (cleanAnalysis s).head? = some '<') →
      analyzeOne s w = none)
    ∧ (∀ (results : List (String × ℚ)), ∀ r ∈ analyze results,
        r.lemma_ ≠ "" ∧ r.pos ≠ "") := by
  constructor
  · intro s w h
    unfold analyzeOne
    by_cases hs : pyStrip s.data = []
    · rw [if_pos hs]
    · rw [if_neg hs]
      have hlem : (cleanAnalysis s).takeWhile (fun x => x ≠ '<') = [] := by
        rcases h with h | h
        · rw [h]; rfl
        · cases hc : cleanAnalysis s with
          | nil => rfl
          | cons a tl =>
            rw [hc] at h
            simp only [List.head?_cons, Option.some.injEq] at h
            subst h
            simp [List.takeWhile]
      simp only [hlem, if_pos]
  · intro results r hr
    simp only [analyze, List.mem_filterMap] at hr
    obtain ⟨p, -, hp⟩ := hr
    unfold analyzeOne at hp
    by_cases hs : pyStrip p.1.data = []
    · rw [if_pos hs] at hp; exact absurd hp (by simp)
    · rw [if_neg hs] at hp
      by_cases hlem : (cleanAnalysis p.1).takeWhile (fun x => x ≠ '<') = []
      · rw [if_pos hlem] at hp; exact absurd hp (by simp)
      · rw [if_neg hlem] at hp
        cases hf : (findTags (cleanAnalysis p.1)).filter (fun t => t ≠ "") with
        | nil => rw [hf] at hp; exact absurd hp (by simp)
        | cons t ts =>
          rw [hf] at hp
          simp only [Option.some.injEq] at hp
          have ht : t ≠ "" := by
            have hmem : t ∈ (findTags (cleanAnalysis p.1)).filter (fun t => t ≠ "") := by
              rw [hf]; exact List.mem_cons_self t ts
            have := (List.mem_filter.mp hmem).2
            simpa using this
          constructor
          · rw [← hp]
            simp only [ne_eq]
            intro hcon
            apply hlem
            have h2 := congrArg String.data hcon
            simpa using h2
          · rw [← hp]
            exact ht

/-- Witness for C10: a discarded lemma-less output and a kept reading. -/
theorem claim_C10_witness :
    analyzeOne "<n><sg>" 1 = none
    ∧ ((⟨"w", "n", [], 1, "w<n>"⟩ : Reading).lemma_ ≠ ""
        ∧ (⟨"w", "n", [], 1, "w<n>"⟩ : Reading).pos ≠ "") :=
  ⟨claim_C10_analyze_nonempty.1 "<n><sg>" 1 (Or.inr (by decide)),
   claim_C10_analyze_nonempty.2 [("w<n>", 1)] ⟨"w", "n", [], 1, "w<n>"⟩ (by decide)⟩

/-- Claim C7: constructing a `Transliterator(lang, source, target)` fails
exactly when no table is registered under `"{lang}_{source}_to_{target}"` in
`TRANSLITERATION_TABLES`; when the table is present, construction succeeds and
carries exactly the registered table (never an identity fallback). -/
theorem claim_C7_table_required (lang : String) (a b : Script) :
    (mkTransliterator lang a b = none ↔
      assocLookup TRANSLITERATION_TABLES (tableKey lang a b) = none)
    ∧ (∀ t : Transliterator, mkTransliterator lang a b = some t →
        assocLookup TRANSLITERATION_TABLES (tableKey lang a b) = some t.forward) := by
  constructor
  · constructor
    · intro h
      unfold mkTransliterator loadMapping at h
      cases hx : assocLookup TRANSLITERATION_TABLES (tableKey lang a b) with
      | none => rfl
      | some tbl => rw [hx] at h; exact absurd h (by simp)
    · intro h
      unfold mkTransliterator loadMapping
      rw [h]
      rfl
  · intro t ht
    unfold mkTransliterator loadMapping at ht
    cases hx : assocLookup TRANSLITERATION_TABLES (tableKey lang a b) with
    | none => rw [hx] at ht; exact Option.noConfusion ht
    | some tbl =>
      rw [hx] at ht
      have ht2 : some (Transliterator.mk lang a b tbl) = some t := ht
      have ht3 := Option.some.inj ht2
      rw [← ht3]

/-- Witness for C7: Kazakh Cyrillic→Arabic has no registered table, so the
constructor fails; Kazakh Cyrillic→Latin is registered, so it succeeds. -/
theorem claim_C7_witness :
    mkTransliterator "kaz" Script.Cyrl Script.Arab = none
    ∧ mkTransliterator "kaz" Script.Cyrl Script.Latn ≠ none :=
  ⟨(claim_C7_table_required "kaz" Script.Cyrl Script.Arab).1.mpr (by decide),
   fun h => by
     have := (claim_C7_table_required "kaz" Script.Cyrl Script.Latn).1.mp h
     exact absurd this (by decide)⟩

/-- Claim C6: for each language registering transliteration tables in both
directions (Kazakh, Uzbek, Turkmen, Crimean Tatar, Tatar, Azerbaijani,
Karakalpak Cyrillic↔Latin, and Uyghur Arabic↔Latin), a representative
vowel/consonant/digraph string transliterates A→B→A back to itself; the
Turkmen strings exercise the contextual semivowel rules (word-initial `е`→`ýe`,
`е` after `ө`→`ýe`, and the reverse collapse `ýe`→`е`). -/
theorem claim_C6_round_trip :
    roundTrips "kaz" Script.Cyrl Script.Latn "шаңырақ" = true
    ∧ roundTrips "uzb" Script.Cyrl Script.Latn "тошкент" = true
    ∧ roundTrips "tuk" Script.Cyrl Script.Latn "еди" = true
    ∧ roundTrips "tuk" Script.Cyrl Script.Latn "өе" = true
    ∧ roundTrips "tuk" Script.Cyrl Script.Latn "щук" = true
    ∧ roundTrips "crh" Script.Cyrl Script.Latn "къавал" = true
    ∧ roundTrips "tat" Script.Cyrl Script.Latn "чәчәк" = true
    ∧ roundTrips "aze" Script.Cyrl Script.Latn "шәкәр" = true
    ∧ roundTrips "kaa" Script.Cyrl Script.Latn "шай" = true
    ∧ roundTrips "uig" Script.Arab Script.Latn "باش" = true := by
  refine ⟨?_, ?_, ?_, ?_, ?_, ?_, ?_, ?_, ?_, ?_⟩ <;> decide

/-- Counterexample to claim C2: in the sentence `["Alma", "bar"]` the word at
index 0 is sentence-initial (per `_is_sentence_initial`), capitalized, not
sentence-final, and not followed by a question particle — yet `context_score`
still applies the `+1` proper-noun bonus and the `−2` imperative penalty (the
scores differ from the uncapitalized surface by exactly `+1` and `−2`),
contradicting "for a capitalized word in the first non-punctuation position,
neither adjustment is applied". -/
theorem claim_C2_counterexample :
    isSentenceInitial (some ["Alma", "bar"]) (some 0) = true
    ∧ pyCapitalized "Alma" = true
    ∧ isFinalLexicalPosition (some ["Alma", "bar"]) (some 0) = false
    ∧ nextIsQuestionParticle (some ["Alma", "bar"]) (some 0) = false
    ∧ contextScore ⟨[], none, none⟩ false false (some "Alma")
        ⟨"alma", "np", [], 1, ""⟩
      = contextScore ⟨[], none, none⟩ false false (some "alma")
          ⟨"alma", "np", [], 1, ""⟩ + 1
    ∧ contextScore ⟨[], none, none⟩ false false (some "Alma")
        ⟨"al", "v", ["imp"], 1, ""⟩
      = contextScore ⟨[], none, none⟩ false false (some "alma")
          ⟨"al", "v", ["imp"], 1, ""⟩ - 2 := by
  decide

/-- Claim C2 (amended): the `+1` proper-noun bonus and the `−2`
imperative-verb penalty of `context_score` are applied exactly when the
surface form is non-empty and starts with an uppercase letter, regardless of
sentence position — `context_score` performs no sentence-initial check (that
check exists only in the unknown-word fallback). Stated for an empty lexicon
so the surface-dependent lexicon boost is inert. -/
theorem claim_C2_cap_adjustment (st : MorphState) (hlex : st.lexicon = [])
    (fl nq : Bool) (s : String) (r : Reading) :
    contextScore st fl nq (some s) r
      = contextScore st fl nq none r
        + (if pyCapitalized s then
            (if r.pos = "np" then 1 else 0)
            + (if (r.pos = "v" ∨ r.pos = "vaux") ∧ "imp" ∈ r.feats then -2
               else 0)
          else 0) := by
  simp only [contextScore, hlex]
  simp only [ne_eq, not_true_eq_false, if_false, reduceIte]
  ring

/-- Witness for the amended C2 at a concrete capitalized surface. -/
theorem claim_C2_witness :
    contextScore ⟨[], none, none⟩ false false (some "Alma")
      ⟨"alma", "np", [], 1, ""⟩
    = contextScore ⟨[], none, none⟩ false false none
        ⟨"alma", "np", [], 1, ""⟩ + 1 := by
  have h := claim_C2_cap_adjustment ⟨[], none, none⟩ rfl false false "Alma"
    ⟨"alma", "np", [], 1, ""⟩
  rw [h]
  decide

/-- Claim C4: for a two-candidate list of a noun reading without verbal
feature tags and a verb reading with a finite-tense feature, at equal FST
weight (and an empty lexicon): sentence-final position selects the verb;
non-final position with no following question particle selects the noun —
in either candidate order. -/
theorem claim_C4_final_verb_preference (st : MorphState)
    (hlex : st.lexicon = []) (ws : Option (List String)) (idx : Option Nat)
    (surf : Option String) (nounR verbR : Reading)
    (hn : nounR.pos = "n") (hnv : ∀ t ∈ nounR.feats, t ∉ verbalTags)
    (hv : verbR.pos = "v") (hvt : ∃ t ∈ verbR.feats, t ∈ finiteTenseTags)
    (hw : nounR.weight = verbR.weight) (readings : List Reading)
    (hr : readings = [nounR, verbR] ∨ readings = [verbR, nounR]) :
    (isFinalLexicalPosition ws idx = true →
      disambiguate st readings ws idx surf = verbR)
    ∧ (isFinalLexicalPosition ws idx = false →
      nextIsQuestionParticle ws idx = false →
      disambiguate st readings ws idx surf = nounR) := by
  constructor
  · intro hfl
    have hsn := contextScore_noun st hlex true (nextIsQuestionParticle ws idx)
      surf nounR hn hnv
    have hsv := (contextScore_verb st hlex surf verbR hv hvt).1
      (nextIsQuestionParticle ws idx)
    have hgt : contextScore st true (nextIsQuestionParticle ws idx) surf nounR
        < contextScore st true (nextIsQuestionParticle ws idx) surf verbR := by
      rw [hsn]; simp only [if_pos]; omega
    rcases hr with rfl | rfl
    · simp only [disambiguate, List.foldl_cons, List.foldl_nil, hfl]
      rw [if_pos (keyLt_eq_weight_gt st true (nextIsQuestionParticle ws idx)
        surf hw.symm hgt)]
    · simp only [disambiguate, List.foldl_cons, List.foldl_nil, hfl]
      rw [if_neg ?_]
      rw [Bool.not_eq_true]
      exact keyLt_eq_weight_lt st true (nextIsQuestionParticle ws idx)
        surf hw hgt
  · intro hfl hnq
    have hsn := contextScore_noun st hlex false false surf nounR hn hnv
    have hsv := (contextScore_verb st hlex surf verbR hv hvt).2
    have hlt : contextScore st false false surf verbR
        < contextScore st false false surf nounR := by
      rw [hsn]; simp; omega
    rcases hr with rfl | rfl
    · simp only [disambiguate, List.foldl_cons, List.foldl_nil, hfl, hnq]
      rw [if_neg ?_]
      rw [Bool.not_eq_true]
      exact keyLt_eq_weight_lt st false false surf hw.symm hlt
    · simp only [disambiguate, List.foldl_cons, List.foldl_nil, hfl, hnq]
      rw [if_pos (keyLt_eq_weight_gt st false false surf hw hlt)]

/-- Counterexample to claim C3: for the empty input string `_lookup_variants`
returns the empty list (the `add` closure refuses empty candidates), not a
non-empty list headed by the surface. -/
theorem claim_C3_counterexample : lookupVariants stdUnicodeEnv "" = [] := by
  decide

/-- Claim C3 (amended): for every non-empty input string — and any behaviour
of the external Unicode normalizer — `_lookup_variants` returns a non-empty
list whose first element is the unmodified surface, followed in order by the
lowercased surface, the NFKC/apostrophe/hyphen-normalized form, its lowercase,
the diacritic-stripped form and its lowercase, with empty strings and
already-present duplicates omitted: the result is a duplicate-free,
empty-free subsequence of those six candidates containing every non-empty
one. -/
theorem claim_C3_lookup_variants (env : UnicodeEnv) (s : String)
    (hs : s ≠ "") :
    (lookupVariants env s).head? = some s
    ∧ lookupVariants env s ≠ []
    ∧ (lookupVariants env s).Sublist (variantSources env s)
    ∧ (∀ v ∈ variantSources env s, v ≠ "" → v ∈ lookupVariants env s)
    ∧ (∀ v ∈ lookupVariants env s, v ≠ "")
    ∧ (lookupVariants env s).Nodup := by
  obtain ⟨rest, hsrc⟩ : ∃ rest, variantSources env s = s :: rest := ⟨_, rfl⟩
  have hadd : addVariant [] s = [s] := by
    unfold addVariant
    rw [if_pos (by simp [hs])]
    rfl
  have hstep : lookupVariants env s = rest.foldl addVariant [s] := by
    unfold lookupVariants
    rw [hsrc]
    simp only [List.foldl_cons]
    rw [hadd]
  obtain ⟨t, ht⟩ := foldl_addVariant_prefix rest [s]
  have hpre : lookupVariants env s = [s] ++ t := hstep.trans ht
  refine ⟨by rw [hpre]; rfl, by rw [hpre]; simp, ?_, ?_, ?_, ?_⟩
  · have h1 := foldl_addVariant_sublist rest [s]
    rw [← hstep] at h1
    rw [hsrc]
    simpa using h1
  · intro v hv hvne
    rw [hsrc] at hv
    rcases List.mem_cons.mp hv with rfl | hv2
    · rw [hpre]; simp
    · rw [hstep]
      exact mem_foldl_addVariant rest [s] hv2 hvne
  · intro v hv
    rw [hstep] at hv
    rcases foldl_addVariant_ne rest [s] v hv with h | h
    · simp only [List.mem_singleton] at h
      subst h
      exact hs
    · exact h
  · rw [hstep]
    exact foldl_addVariant_nodup rest [s] (by simp)

/-- Witness for the amended C3 at a concrete surface with a capital letter
and a Unicode hyphen. -/
theorem claim_C3_witness :
    (lookupVariants stdUnicodeEnv "Alma‑Ata").head? = some "Alma‑Ata"
    ∧ "alma-ata" ∈ lookupVariants stdUnicodeEnv "Alma‑Ata" := by
  have h := claim_C3_lookup_variants stdUnicodeEnv "Alma‑Ata" (by decide)
  exact ⟨h.1, h.2.2.2.1 "alma-ata" (by decide) (by decide)⟩

/-- Claim C8: `detect_script` fails (raises `ValueError`, modelled as `none`)
if and only if no character of the text is classified into a script range
(after the neutral-category exclusion); otherwise it returns a script of
maximal classified-character count, and any script of equal count was not
encountered earlier in scan order (whenever the tied script has appeared
within the first `n` characters of the occurrence stream, so has the
returned one). Stated for every neutrality test `neutral`, the model of the
external `unicodedata.category` check. -/
theorem claim_C8_detect_script (neutral : Char → Bool) (text : String) :
    (detectScript neutral text = none ↔
      ∀ c ∈ text.data, charToScript neutral c = none)
    ∧ (∀ s : Script, detectScript neutral text = some s →
        s ∈ scriptOccurrences neutral text
        ∧ (∀ s' : Script, (scriptOccurrences neutral text).count s'
            ≤ (scriptOccurrences neutral text).count s)
        ∧ (∀ s' : Script,
            (scriptOccurrences neutral text).count s'
              = (scriptOccurrences neutral text).count s →
            ∀ n, s' ∈ (scriptOccurrences neutral text).take n →
              s ∈ (scriptOccurrences neutral text).take n)) := by
  cases hd : dedupFirst (scriptOccurrences neutral text) with
  | nil =>
    have hnil : scriptOccurrences neutral text = [] :=
      (dedupFirst_eq_nil_iff _).mp hd
    have hdet : detectScript neutral text = none := by
      show mostCommonFirst (scriptOccurrences neutral text) = none
      unfold mostCommonFirst
      rw [hd]
    constructor
    · rw [hdet]
      simp only [true_iff]
      exact List.filterMap_eq_nil.mp hnil
    · intro s hs
      rw [hdet] at hs
      exact absurd hs (by simp)
  | cons x xs =>
    have hne : scriptOccurrences neutral text ≠ [] := by
      intro hcon
      rw [(dedupFirst_eq_nil_iff _).mpr hcon] at hd
      exact absurd hd.symm (by simp)
    have hdet : detectScript neutral text
        = some (xs.foldl (fun best s =>
            if (scriptOccurrences neutral text).count best
              < (scriptOccurrences neutral text).count s then s else best) x) := by
      show mostCommonFirst (scriptOccurrences neutral text) = _
      unfold mostCommonFirst
      rw [hd]
    obtain ⟨l1, l2, heq, hl1, hl2⟩ := argfold_split
      (fun y => (scriptOccurrences neutral text).count y) xs x
    rw [← hd] at heq
    constructor
    · constructor
      · intro hcon
        rw [hdet] at hcon
        exact absurd hcon (by simp)
      · intro hall
        exact absurd
          (show scriptOccurrences neutral text = [] from
            List.filterMap_eq_nil.mpr hall) hne
    · intro s hs
      rw [hdet] at hs
      have hsval := Option.some.inj hs
      rw [hsval] at heq hl1 hl2
      refine ⟨?_, ?_, ?_⟩
      · have hmem : s ∈ dedupFirst (scriptOccurrences neutral text) := by
          rw [heq]
          exact List.mem_append_right _ (List.mem_cons_self _ _)
        exact (dedupFirst_mem _ _).mp hmem
      · intro s'
        by_cases hmem : s' ∈ scriptOccurrences neutral text
        · have hd2 : s' ∈ dedupFirst (scriptOccurrences neutral text) :=
            (dedupFirst_mem _ _).mpr hmem
          rw [heq] at hd2
          rcases List.mem_append.mp hd2 with h1 | h2
          · exact le_of_lt (hl1 s' h1)
          · rcases List.mem_cons.mp h2 with rfl | h3
            · exact le_refl _
            · exact hl2 s' h3
        · rw [List.count_eq_zero.mpr hmem]
          exact Nat.zero_le _
      · intro s' hcnt n htake
        have hmem : s' ∈ scriptOccurrences neutral text :=
          List.mem_of_mem_take htake
        have hd2 : s' ∈ dedupFirst (scriptOccurrences neutral text) :=
          (dedupFirst_mem _ _).mpr hmem
        rw [heq] at hd2
        rcases List.mem_append.mp hd2 with h1 | h2
        · exact absurd hcnt (by have := hl1 s' h1; omega)
        · rcases List.mem_cons.mp h2 with rfl | h3
          · exact htake
          · exact dedupFirstF_precedes (scriptOccurrences neutral text).length
              (scriptOccurrences neutral text) (le_refl _) l1 s l2 heq s' h3 n
              htake

/-- Witness for C8: mixed Latin/Cyrillic text with a Latin majority detects
Latin, with the counting facts from the theorem. -/
theorem claim_C8_witness :
    Script.Latn ∈ scriptOccurrences stdNeutral "abc кг!"
    ∧ ∀ s' : Script, (scriptOccurrences stdNeutral "abc кг!").count s'
        ≤ (scriptOccurrences stdNeutral "abc кг!").count Script.Latn := by
  have h := (claim_C8_detect_script stdNeutral "abc кг!").2 Script.Latn
    (by decide)
  exact ⟨h.1, h.2.1⟩

/-- Witness for C4 at concrete sentences: sentence-final `ат` (noun/verb at
equal weight) resolves to the verb; the same pair mid-sentence with no
following question particle resolves to the noun. -/
theorem claim_C4_witness :
    disambiguate ⟨[], none, none⟩
      [⟨"ат", "n", ["nom"], 1, ""⟩, ⟨"ат", "v", ["past"], 1, ""⟩]
      (some ["мен", "ат"]) (some 1) (some "ат")
      = ⟨"ат", "v", ["past"], 1, ""⟩
    ∧ disambiguate ⟨[], none, none⟩
        [⟨"ат", "n", ["nom"], 1, ""⟩, ⟨"ат", "v", ["past"], 1, ""⟩]
        (some ["ат", "келді"]) (some 0) (some "ат")
      = ⟨"ат", "n", ["nom"], 1, ""⟩ := by
  constructor
  · exact (claim_C4_final_verb_preference ⟨[], none, none⟩ rfl
      (some ["мен", "ат"]) (some 1) (some "ат")
      ⟨"ат", "n", ["nom"], 1, ""⟩ ⟨"ат", "v", ["past"], 1, ""⟩
      rfl (by decide) rfl ⟨"past", by decide⟩ rfl _ (Or.inl rfl)).1 (by decide)
  · exact (claim_C4_final_verb_preference ⟨[], none, none⟩ rfl
      (some ["ат", "келді"]) (some 0) (some "ат")
      ⟨"ат", "n", ["nom"], 1, ""⟩ ⟨"ат", "v", ["past"], 1, ""⟩
      rfl (by decide) rfl ⟨"past", by decide⟩ rfl _ (Or.inl rfl)).2
      (by decide) (by decide)

end TurkicNLP
